import Mathlib

/-!
Verification of the statistics recomputation and lineup-validation core of the
powerplay-manager Django application.

The relational rows of the relevant models are embedded as Lean structures and
the database as lists of rows.  The routines under verification are:

* `recompute_game` (powerplay_app/services/stats.py): rebuilds the per-game
  `PlayerStats` rows of one game from its `Goal`/`Penalty` events and the
  goalie line assignments;
* `LineAssignment.clean`, `Goal.clean`, `Penalty.clean`
  (powerplay_app/models/games.py, events.py): write-time validation rules;
* `prune_goals_to_score` (management/commands/sync_results.py): deletes excess
  `Goal` rows so each team's goal count does not exceed the manually stored
  score.

Integer database columns are `PositiveIntegerField`s, so they are embedded as
`Nat`.  Nullable foreign keys are `Option Nat`; non-nullable foreign keys are
`Nat`.  Django's per-request ORM semantics are embedded as pure functions over
the whole database value.
-/

namespace Powerplay

/-- Slots available within a line (`LineSlot` in powerplay_app/models/games.py).
`G` is the goalie slot. -/
inductive LineSlot where
  | LW | C | RW | LD | RD | G
deriving DecidableEq, Repr

/-- A row of the `Player` model (powerplay_app/models/core.py).  Only the
columns consulted by the verified routines are kept: the primary key, the
nullable `team` foreign key (`on_delete=SET_NULL`) and the `position` string
(one of `"forward"`, `"defense"`, `"goalie"`). -/
structure Player where
  id : Nat
  team : Option Nat
  position : String
deriving DecidableEq, Repr

/-- A row of the `Game` model (powerplay_app/models/games.py): the two team
foreign keys and the manually entered score.  Scheduling and competition
columns are never consulted by the verified routines and are omitted. -/
structure Game where
  id : Nat
  home_team : Nat
  away_team : Nat
  score_home : Nat
  score_away : Nat
deriving DecidableEq, Repr

/-- A row of the `Goal` model (powerplay_app/models/events.py).  `scorer` is a
non-nullable foreign key; the two assist keys are nullable (`SET_NULL`).
`period` and `second_in_period` come from `GameEventBase` and order goals in
`prune_goals_to_score`. -/
structure Goal where
  id : Nat
  game : Nat
  team : Nat
  period : Nat
  second_in_period : Nat
  scorer : Nat
  assist_1 : Option Nat
  assist_2 : Option Nat
deriving DecidableEq, Repr

/-- A row of the `Penalty` model (powerplay_app/models/events.py).
`penalized_player` is a non-nullable foreign key and `minutes` a positive
integer column. -/
structure Penalty where
  id : Nat
  game : Nat
  team : Nat
  period : Nat
  second_in_period : Nat
  penalized_player : Nat
  minutes : Nat
deriving DecidableEq, Repr

/-- A row of the `GameNomination` model (powerplay_app/models/games.py). -/
structure GameNomination where
  id : Nat
  game : Nat
  player : Nat
  team : Nat
deriving DecidableEq, Repr

/-- A row of the `Line` model (powerplay_app/models/games.py); `line_number`
`0` is the goalie line. -/
structure Line where
  id : Nat
  game : Nat
  team : Nat
  line_number : Nat
deriving DecidableEq, Repr

/-- A row of the `LineAssignment` model (powerplay_app/models/games.py).
`player` is nullable (a slot may be intentionally empty). -/
structure LineAssignment where
  id : Nat
  line : Nat
  player : Option Nat
  slot : LineSlot
deriving DecidableEq, Repr

/-- A row of the `PlayerStats` model (powerplay_app/models/stats.py): one row
per (player, game) with the derived counters.  All counter columns default
to `0`. -/
structure PlayerStats where
  player : Nat
  game : Nat
  points : Nat
  goals : Nat
  assists : Nat
  shots : Nat
  penalty_minutes : Nat
  goals_against : Nat
deriving DecidableEq, Repr

/-- The database: one list of rows per table. -/
structure DB where
  players : List Player
  games : List Game
  goals : List Goal
  penalties : List Penalty
  lines : List Line
  lineAssignments : List LineAssignment
  nominations : List GameNomination
  stats : List PlayerStats
deriving DecidableEq, Repr

/-- Primary-key lookup in the `Player` table. -/
def findPlayer (db : DB) (pid : Nat) : Option Player :=
  db.players.find? (fun p => p.id == pid)

/-- Primary-key lookup in the `Line` table. -/
def findLine (db : DB) (lid : Nat) : Option Line :=
  db.lines.find? (fun ln => ln.id == lid)

/-- Primary-key lookup in the `Game` table. -/
def findGame (db : DB) (gid : Nat) : Option Game :=
  db.games.find? (fun gm => gm.id == gid)

/-! ### Embedding of `recompute_game` (powerplay_app/services/stats.py)

The routine reads the `Goal`, `Penalty` and `LineAssignment` tables and
mutates only `PlayerStats` rows, through `update`, `get_or_create` and
`save(update_fields=...)`.  Those three ORM operations are embedded first. -/

/-- A fresh `PlayerStats` row as produced by `get_or_create`: every counter
column takes its model default `0`. -/
def mkStats (pid gid : Nat) : PlayerStats :=
  { player := pid, game := gid, points := 0, goals := 0, assists := 0,
    shots := 0, penalty_minutes := 0, goals_against := 0 }

/-- The per-row effect of the reset `update(points=0, goals=0, assists=0,
penalty_minutes=0, goals_against=0)`.  Note that `shots` is not in the update
list and keeps its stored value. -/
def resetRow (s : PlayerStats) : PlayerStats :=
  { s with points := 0, goals := 0, assists := 0, penalty_minutes := 0,
           goals_against := 0 }

/-- `PlayerStats.objects.filter(game=game).update(...)`: reset every stats row
of the given game. -/
def resetStats (gid : Nat) (st : List PlayerStats) : List PlayerStats :=
  st.map (fun s => if s.game == gid then resetRow s else s)

/-- The stats row of a (player, game) pair, as `get_or_create` would fetch it.
The schema enforces uniqueness of (player, game), so `find?` is the lookup. -/
def statOf (st : List PlayerStats) (pid gid : Nat) : Option PlayerStats :=
  st.find? (fun s => s.player == pid && s.game == gid)

/-- `PlayerStats.objects.get_or_create(player_id=pid, game=game)`: return the
existing row, or insert a fresh defaulted row. -/
def getOrCreate (st : List PlayerStats) (pid gid : Nat) :
    PlayerStats × List PlayerStats :=
  match statOf st pid gid with
  | some s => (s, st)
  | none => (mkStats pid gid, st ++ [mkStats pid gid])

/-- `stats.save(...)`: store the updated row over the row with the same
(player, game) key. -/
def writeStats (st : List PlayerStats) (s : PlayerStats) : List PlayerStats :=
  st.map (fun t => if t.player == s.player && t.game == s.game then s else t)

/-- One `get_or_create` / mutate / `save` round-trip on the stats row of
`(pid, gid)`, with `f` the in-memory field mutation. -/
def applyUpd (gid pid : Nat) (f : PlayerStats → PlayerStats)
    (st : List PlayerStats) : List PlayerStats :=
  let p := getOrCreate st pid gid
  writeStats p.2 (f p.1)

/-- The `Goal` rows of one game (`Goal.objects.filter(game=game)`). -/
def goalsOf (db : DB) (gid : Nat) : List Goal :=
  db.goals.filter (fun gl => gl.game == gid)

/-- The `c=Count("id")` aggregate of the goals grouped by `scorer`: the number
of goals of the game scored by `pid`. -/
def scorerCount (db : DB) (gid pid : Nat) : Nat :=
  ((goalsOf db gid).filter (fun gl => gl.scorer == pid)).length

/-- The distinct scorers of the game, i.e. the groups of
`.values("scorer").annotate(c=Count("id"))`.  The iteration order of the SQL
grouping is backend-defined; any duplicate-free enumeration embeds it. -/
def scorers (db : DB) (gid : Nat) : List Nat :=
  ((goalsOf db gid).map (fun gl => gl.scorer)).dedup

/-- Loop body of the goals step: `stats.goals = c`;
`stats.points = (stats.goals or 0) + (stats.assists or 0)`. -/
def goalUpdFn (db : DB) (gid pid : Nat) : PlayerStats → PlayerStats :=
  fun s =>
    let c := scorerCount db gid pid
    { s with goals := c, points := c + s.assists }

/-- Step 2 of `recompute_game`: per-scorer goal counts. -/
def goalsStep (db : DB) (g : Game) (st : List PlayerStats) : List PlayerStats :=
  (scorers db g.id).foldl
    (fun st pid => applyUpd g.id pid (goalUpdFn db g.id pid) st) st

/-- The non-null values of one assist column over the goals of the game
(`filter(game=game, field__isnull=False).values(field)`). -/
def assistVals (db : DB) (gid : Nat) (f : Goal → Option Nat) : List Nat :=
  (goalsOf db gid).filterMap f

/-- The `c=Count("id")` aggregate for one assist column: the number of goals of
the game on which `pid` appears in that column. -/
def assistCount (db : DB) (gid : Nat) (f : Goal → Option Nat) (pid : Nat) : Nat :=
  ((assistVals db gid f).filter (fun x => x == pid)).length

/-- The distinct players appearing in one assist column of the game. -/
def assistPids (db : DB) (gid : Nat) (f : Goal → Option Nat) : List Nat :=
  (assistVals db gid f).dedup

/-- Loop body of an assist pass: `stats.assists = (stats.assists or 0) + c`;
`stats.points = (stats.goals or 0) + (stats.assists or 0)`. -/
def assistUpdFn (db : DB) (gid : Nat) (f : Goal → Option Nat) (pid : Nat) :
    PlayerStats → PlayerStats :=
  fun s =>
    let a := s.assists + assistCount db gid f pid
    { s with assists := a, points := s.goals + a }

/-- Step 3 of `recompute_game`, one pass per assist column. -/
def assistsStep (db : DB) (g : Game) (f : Goal → Option Nat)
    (st : List PlayerStats) : List PlayerStats :=
  (assistPids db g.id f).foldl
    (fun st pid => applyUpd g.id pid (assistUpdFn db g.id f pid) st) st

/-- The `mins=Sum("minutes")` aggregate of the game's penalties of `pid`. -/
def penMinutes (db : DB) (gid pid : Nat) : Nat :=
  ((db.penalties.filter
      (fun p => p.game == gid && p.penalized_player == pid)).map
    (fun p => p.minutes)).sum

/-- The distinct penalized players of the game. -/
def penPids (db : DB) (gid : Nat) : List Nat :=
  ((db.penalties.filter (fun p => p.game == gid)).map
    (fun p => p.penalized_player)).dedup

/-- Loop body of the penalty step: `stats.penalty_minutes = int(mins or 0)`. -/
def penUpdFn (db : DB) (gid pid : Nat) : PlayerStats → PlayerStats :=
  fun s => { s with penalty_minutes := penMinutes db gid pid }

/-- Step 4 of `recompute_game`: per-player penalty-minute sums. -/
def penaltiesStep (db : DB) (g : Game) (st : List PlayerStats) :
    List PlayerStats :=
  (penPids db g.id).foldl
    (fun st pid => applyUpd g.id pid (penUpdFn db g.id pid) st) st

/-- The goalie-slot queryset
`LineAssignment.objects.filter(line__game=game, line__line_number=0,
slot=LineSlot.G)`, joined with its `Line` row. -/
def goalieAssignments (db : DB) (gid : Nat) : List (LineAssignment × Line) :=
  db.lineAssignments.filterMap
    (fun la =>
      match findLine db la.line with
      | some ln =>
          if ln.game == gid && ln.line_number == 0 &&
              decide (la.slot = LineSlot.G)
          then some (la, ln) else none
      | none => none)

/-- `game.score_away if la.line.team_id == home_id else game.score_home`:
the score conceded by the goalie's team. -/
def concededFor (g : Game) (ln : Line) : Nat :=
  if ln.team == g.home_team then g.score_away else g.score_home

/-- The stats update performed for one goalie-slot assignment, or `none` when
the loop body `continue`s (empty slot, or occupant whose `position` is not
`"goalie"`). -/
def gaUpdOf (db : DB) (g : Game) (x : LineAssignment × Line) :
    Option (Nat × (PlayerStats → PlayerStats)) :=
  match x.1.player with
  | none => none
  | some pid =>
      match findPlayer db pid with
      | none => none
      | some p =>
          if p.position = "goalie"
          then some (pid, fun s => { s with goals_against := concededFor g x.2 })
          else none

/-- Step 5 of `recompute_game`: `goals_against` for line-0 slot-G goalies from
the manually stored score. -/
def gaStep (db : DB) (g : Game) (st : List PlayerStats) : List PlayerStats :=
  (goalieAssignments db g.id).foldl
    (fun st x =>
      match gaUpdOf db g x with
      | some u => applyUpd g.id u.1 u.2 st
      | none => st) st

/-- The new `PlayerStats` table produced by `recompute_game`: reset, then the
goal, assist, penalty and goals-against passes in source order. -/
def recomputeStats (db : DB) (g : Game) : List PlayerStats :=
  gaStep db g
    (penaltiesStep db g
      (assistsStep db g (fun gl => gl.assist_2)
        (assistsStep db g (fun gl => gl.assist_1)
          (goalsStep db g (resetStats g.id db.stats)))))

/-- `recompute_game(game)` (powerplay_app/services/stats.py): the only table it
writes is `PlayerStats`.  The trailing cache invalidation touches no database
row and has no embedding. -/
def recompute_game (db : DB) (g : Game) : DB :=
  { db with stats := recomputeStats db g }

/-! ### Embedding of `LineAssignment.clean` (powerplay_app/models/games.py)

The three rules raise in source order; each is embedded as an
`Option String` (an error message, or `none` when the rule passes).  A foreign
key whose target row is absent cannot occur in stored data; such a lookup
failure makes the rule pass here. -/

/-- Rule 1: `if self.line_id and self.player_id: if self.player.team_id !=
self.line.team_id: raise`. -/
def laTeamError (db : DB) (la : LineAssignment) : Option String :=
  match la.player with
  | some pid =>
      match findPlayer db pid, findLine db la.line with
      | some p, some ln =>
          if p.team ≠ some ln.team
          then some "Hráč v lajně musí patřit do stejného týmu jako lajna."
          else none
      | _, _ => none
  | none => none

/-- Rule 2: on the goalie line (`line_number == 0`) only slot `G` is allowed,
and an occupant must have `position == "goalie"`. -/
def laGoalieLineError (db : DB) (la : LineAssignment) : Option String :=
  match findLine db la.line with
  | some ln =>
      if ln.line_number = 0 then
        if la.slot ≠ LineSlot.G
        then some "V brankářské lajně (0) je povolen pouze post Brankář."
        else
          match la.player with
          | some pid =>
              match findPlayer db pid with
              | some p =>
                  if p.position ≠ "goalie"
                  then some "Do brankářské lajny lze přiřadit jen hráče s pozicí Brankář."
                  else none
              | none => none
          | none => none
      else none
  | none => none

/-- The game a `Line` row belongs to (the `line__game_id` join). -/
def lineGameOf (db : DB) (lid : Nat) : Option Nat :=
  (findLine db lid).map (fun ln => ln.game)

/-- Rule 3's queryset:
`LineAssignment.objects.filter(player_id=self.player_id,
line__game_id=game_id).exclude(pk=self.pk).exists()`. -/
def laExistsElsewhere (db : DB) (la : LineAssignment) : Bool :=
  match la.player, findLine db la.line with
  | some pid, some ln =>
      db.lineAssignments.any
        (fun o => o.player == some pid && lineGameOf db o.line == some ln.game
          && o.id != la.id)
  | _, _ => false

/-- `LineAssignment.clean`: the three rules evaluated in source order; the
first violated rule's message is raised. -/
def laClean (db : DB) (la : LineAssignment) : Except String Unit :=
  match laTeamError db la with
  | some e => .error e
  | none =>
      match laGoalieLineError db la with
      | some e => .error e
      | none =>
          if laExistsElsewhere db la
          then .error "Hráč už je přiřazen v jiné lajně v tomto zápase."
          else .ok ()

/-! ### Embedding of `Goal.clean` and `Penalty.clean`
(powerplay_app/models/events.py) -/

/-- `GameNomination.objects.filter(game_id=gid, player_id=pid).exists()`. -/
def nominated (db : DB) (gid pid : Nat) : Bool :=
  db.nominations.any (fun n => n.game == gid && n.player == pid)

/-- `GameEventBase.clean`: the event's team must be one of the game's two
participants. -/
def eventTeamError (db : DB) (gid tid : Nat) : Option String :=
  match findGame db gid with
  | some gm =>
      if tid ≠ gm.home_team ∧ tid ≠ gm.away_team
      then some "Událost může být jen pro tým účastnící se zápasu."
      else none
  | none => none

/-- `players = [self.scorer, self.assist_1, self.assist_2]` filtered of
`None`, in source order. -/
def involvedPlayers (gl : Goal) : List Nat :=
  [some gl.scorer, gl.assist_1, gl.assist_2].filterMap id

/-- One iteration of `for player in filter(None, players)`: team membership,
then nomination. -/
def playerEventError (db : DB) (tid gid pid : Nat) : Option String :=
  match findPlayer db pid with
  | some p =>
      if p.team ≠ some tid
      then some "Střelec i asistenti musí být z týmu, který gól vstřelil."
      else if ¬ nominated db gid pid
      then some "Střelec/asistenti musí být nominováni do tohoto zápasu."
      else none
  | none => none

/-- First error raised by a loop over player ids, or `none`. -/
def firstErr (f : Nat → Option String) : List Nat → Option String
  | [] => none
  | pid :: rest =>
      match f pid with
      | some e => some e
      | none => firstErr f rest

/-- The assist-duplication rules at the end of `Goal.clean`. -/
def goalDupError (gl : Goal) : Option String :=
  if gl.assist_1 = some gl.scorer
  then some "Asistent 1 nesmí být zároveň střelcem."
  else if gl.assist_2.isSome ∧
      (gl.assist_2 = some gl.scorer ∨ gl.assist_2 = gl.assist_1)
  then some "Asistent 2 nesmí být střelcem ani shodný s Asistentem 1."
  else none

/-- `Goal.clean`: base team rule, then the per-player team/nomination loop,
then the assist-duplication rules. -/
def goalClean (db : DB) (gl : Goal) : Except String Unit :=
  match eventTeamError db gl.game gl.team with
  | some e => .error e
  | none =>
      match firstErr (playerEventError db gl.team gl.game) (involvedPlayers gl) with
      | some e => .error e
      | none =>
          match goalDupError gl with
          | some e => .error e
          | none => .ok ()

/-- The team-membership rule of `Penalty.clean`. -/
def penaltyTeamError (db : DB) (pn : Penalty) : Option String :=
  match findPlayer db pn.penalized_player with
  | some p =>
      if p.team ≠ some pn.team
      then some "Trest musí být připsán týmu, za který faulující hráč hraje v zápase."
      else none
  | none => none

/-- `Penalty.clean`: base team rule, the penalized player's team membership,
then their nomination. -/
def penaltyClean (db : DB) (pn : Penalty) : Except String Unit :=
  match eventTeamError db pn.game pn.team with
  | some e => .error e
  | none =>
      match penaltyTeamError db pn with
      | some e => .error e
      | none =>
          if ¬ nominated db pn.game pn.penalized_player
          then .error "Faulující hráč musí být nominován do tohoto zápasu."
          else .ok ()

/-- Deleting the `GameNomination` rows of one (game, player) pair. -/
def removeNomination (db : DB) (gid pid : Nat) : DB :=
  { db with nominations :=
      db.nominations.filter (fun n => !(n.game == gid && n.player == pid)) }

/-! ### Embedding of `prune_goals_to_score`
(powerplay_app/management/commands/sync_results.py) -/

/-- The goals of one team in one game
(`Goal.objects.filter(game=game, team=...)`). -/
def teamGameGoals (db : DB) (gid tid : Nat) : List Goal :=
  db.goals.filter (fun gl => gl.game == gid && gl.team == tid)

/-- The `order_by("-period", "-second_in_period", "-id")` comparison:
`a` precedes `b` in the descending ordering. -/
def goalDescLE (a b : Goal) : Bool :=
  b.period < a.period ||
    (b.period == a.period &&
      (b.second_in_period < a.second_in_period ||
        (b.second_in_period == a.second_in_period && b.id ≤ a.id)))

/-- `_delete_excess(goals_qs, target_count)`: delete, by primary key, the first
`total - target` goals of the descending-ordered queryset.  `target` is a
`Nat`, so Python's `max(0, ...)` clamp and the `extra <= 0` early return are
the truncated subtraction and an empty `take`. -/
def deleteExcessGoals (db : DB) (gid tid target : Nat) : DB :=
  let sorted := (teamGameGoals db gid tid).mergeSort goalDescLE
  let extra := sorted.length - target
  let ids := (sorted.take extra).map (fun gl => gl.id)
  { db with goals := db.goals.filter (fun gl => !(ids.contains gl.id)) }

/-- `prune_goals_to_score(game)`: prune the home team's goals to `score_home`,
then the away team's to `score_away`.  Id `0` embeds a missing foreign key
(Python `None`), matching the `if not (game.home_team_id and
game.away_team_id)` early return. -/
def prune_goals_to_score (db : DB) (g : Game) : DB :=
  if g.home_team = 0 ∨ g.away_team = 0 then db
  else
    deleteExcessGoals
      (deleteExcessGoals db g.id g.home_team g.score_home)
      g.id g.away_team g.score_away

/-! ### Derived definitions used by the analysis -/

/-- One pending stats update: the player id it targets and the in-memory field
mutation it performs. -/
abbrev StatsUpd := Nat × (PlayerStats → PlayerStats)

/-- A field mutation of `recompute_game` only rewrites counter columns: it
keeps the (player, game) key and the `shots` column. -/
def updOk (f : PlayerStats → PlayerStats) : Prop :=
  ∀ s, (f s).player = s.player ∧ (f s).game = s.game ∧ (f s).shots = s.shots

/-- Run a list of updates against the stats table. -/
def runUpds (gid : Nat) (L : List StatsUpd) (st : List PlayerStats) :
    List PlayerStats :=
  L.foldl (fun st u => applyUpd gid u.1 u.2 st) st

/-- The row a key holds after its own updates ran: unchanged when there are
none, otherwise the updates folded over the stored (or freshly created) row. -/
def applyAll (pid gid : Nat) :
    List StatsUpd → Option PlayerStats → Option PlayerStats
  | [], os => os
  | u :: us, os =>
      some ((u :: us).foldl (fun s v => v.2 s) (os.getD (mkStats pid gid)))

/-- The pending updates of the goals pass. -/
def goalUpdList (db : DB) (gid : Nat) : List StatsUpd :=
  (scorers db gid).map (fun pid => (pid, goalUpdFn db gid pid))

/-- The pending updates of one assist pass. -/
def assistUpdList (db : DB) (gid : Nat) (f : Goal → Option Nat) :
    List StatsUpd :=
  (assistPids db gid f).map (fun pid => (pid, assistUpdFn db gid f pid))

/-- The pending updates of the penalty pass. -/
def penUpdList (db : DB) (gid : Nat) : List StatsUpd :=
  (penPids db gid).map (fun pid => (pid, penUpdFn db gid pid))

/-- The pending updates of the goals-against pass. -/
def gaUpdList (db : DB) (g : Game) : List StatsUpd :=
  (goalieAssignments db g.id).filterMap (gaUpdOf db g)

/-- All updates of one `recompute_game` run, in execution order. -/
def updList (db : DB) (g : Game) : List StatsUpd :=
  goalUpdList db g.id ++
    assistUpdList db g.id (fun gl => gl.assist_1) ++
    assistUpdList db g.id (fun gl => gl.assist_2) ++
    penUpdList db g.id ++
    gaUpdList db g

/-- The updates of one run that target a given player. -/
def updsFor (db : DB) (g : Game) (pid : Nat) : List StatsUpd :=
  (updList db g).filter (fun u => u.1 == pid)

/-- Folding a player's own update sequence over a row. -/
def statsFold (us : List StatsUpd) (s : PlayerStats) : PlayerStats :=
  us.foldl (fun s v => v.2 s) s

/-- The players credited with a `goals_against` write by the goals-against
pass: occupants of a line-0 slot-G assignment whose position is `"goalie"`. -/
def gaPids (db : DB) (g : Game) : List Nat :=
  (gaUpdList db g).map Prod.fst

/-- The first four passes of a run (goals, both assist passes, penalties). -/
def eventUpdList (db : DB) (g : Game) : List StatsUpd :=
  goalUpdList db g.id ++
    assistUpdList db g.id (fun gl => gl.assist_1) ++
    assistUpdList db g.id (fun gl => gl.assist_2) ++
    penUpdList db g.id

/-- The schema's unique constraint on `PlayerStats (player, game)`. -/
def StatsUnique (st : List PlayerStats) : Prop :=
  (st.map (fun s => (s.player, s.game))).Nodup

/-! ### Concrete databases

`exDB` realises the spec's concrete scenario: home 10 beats away 20 by 3:1,
its three goals scored by players 100 (twice) and 101, with assists by 101 and
102, two penalties on 102, and goalie 200 on the away line-0 slot G.  One
stale stats row for player 102 exists before the run.  The other databases
exercise single validation rules. -/

def exGame : Game := ⟨1, 10, 20, 3, 1⟩

def exDB : DB :=
  { players := [⟨100, some 10, "forward"⟩, ⟨101, some 10, "forward"⟩,
                ⟨200, some 20, "goalie"⟩, ⟨102, some 10, "forward"⟩],
    games := [exGame],
    goals := [⟨1, 1, 10, 1, 100, 100, some 101, none⟩,
              ⟨2, 1, 10, 2, 200, 100, some 101, some 102⟩,
              ⟨3, 1, 10, 3, 300, 101, none, none⟩],
    penalties := [⟨1, 1, 10, 1, 50, 102, 2⟩, ⟨2, 1, 10, 2, 60, 102, 5⟩],
    lines := [⟨5, 1, 20, 0⟩],
    lineAssignments := [⟨7, 5, some 200, LineSlot.G⟩],
    nominations := [⟨1, 1, 100, 10⟩, ⟨2, 1, 101, 10⟩, ⟨3, 1, 102, 10⟩,
                    ⟨4, 1, 200, 20⟩],
    stats := [⟨102, 1, 9, 9, 9, 4, 9, 9⟩] }

/-- A game with no goal and no penalty rows, a nonzero stored home score, and
a goalie on the away line-0 slot G. -/
def c2game : Game := ⟨1, 10, 20, 2, 0⟩

def c2db : DB :=
  { players := [⟨100, some 20, "goalie"⟩],
    games := [c2game],
    goals := [],
    penalties := [],
    lines := [⟨5, 1, 20, 0⟩],
    lineAssignments := [⟨7, 5, some 100, LineSlot.G⟩],
    nominations := [],
    stats := [⟨100, 1, 0, 0, 0, 0, 0, 0⟩] }

/-- A game with no events and no line assignments, and one stale stats row. -/
def c2zdb : DB :=
  { players := [],
    games := [c2game],
    goals := [],
    penalties := [],
    lines := [],
    lineAssignments := [],
    nominations := [],
    stats := [⟨100, 1, 5, 1, 1, 4, 3, 2⟩] }

/-- A forward assigned to slot C of the goalie line 0. -/
def c6db : DB :=
  { players := [⟨100, some 20, "forward"⟩],
    games := [exGame],
    goals := [],
    penalties := [],
    lines := [⟨5, 1, 20, 0⟩],
    lineAssignments := [],
    nominations := [],
    stats := [] }

def c6la : LineAssignment := ⟨7, 5, some 100, LineSlot.C⟩

/-- Player 100 already assigned to line 5 of game 1; a second assignment of
the same player to line 6 of the same game is being validated. -/
def c7db : DB :=
  { players := [⟨100, some 20, "forward"⟩],
    games := [exGame],
    goals := [],
    penalties := [],
    lines := [⟨5, 1, 20, 1⟩, ⟨6, 1, 20, 2⟩],
    lineAssignments := [⟨8, 5, some 100, LineSlot.LW⟩],
    nominations := [],
    stats := [] }

def c7la : LineAssignment := ⟨9, 6, some 100, LineSlot.C⟩

/-- A valid goal and a valid penalty of `exDB`. -/
def c8goal : Goal := ⟨4, 1, 10, 1, 10, 100, some 101, none⟩

def c8pen : Penalty := ⟨3, 1, 10, 1, 20, 102, 2⟩

/-- Home team 10 has four goal rows but a stored score of 2; away team 20 has
one goal row and a stored score of 3. -/
def c9game : Game := ⟨1, 10, 20, 2, 3⟩

def c9db : DB :=
  { players := [],
    games := [c9game],
    goals := [⟨1, 1, 10, 1, 100, 100, none, none⟩,
              ⟨2, 1, 10, 2, 200, 100, none, none⟩,
              ⟨3, 1, 10, 2, 300, 101, none, none⟩,
              ⟨4, 1, 10, 3, 100, 101, none, none⟩,
              ⟨5, 1, 20, 3, 200, 201, none, none⟩],
    penalties := [],
    lines := [],
    lineAssignments := [],
    nominations := [],
    stats := [] }


/-! ### Analysis machinery for `recompute_game`

The mutation passes of `recompute_game` are sequences of `applyUpd` calls.
The lemmas below characterise the stats row of each (player, game) key, via
`statOf`, after any such sequence. -/





theorem applyAll_nil (pid gid : Nat) (os : Option PlayerStats) :
    applyAll pid gid [] os = os := rfl

theorem applyAll_cons (pid gid : Nat) (u : StatsUpd) (us : List StatsUpd)
    (os : Option PlayerStats) :
    applyAll pid gid (u :: us) os =
      applyAll pid gid us (some (u.2 (os.getD (mkStats pid gid)))) := by
  cases us with
  | nil => rfl
  | cons v vs => rfl

theorem find?_map_pred {α : Type} (l : List α) (f : α → α) (p : α → Bool)
    (hp : ∀ a, p (f a) = p a) :
    (l.map f).find? p = (l.find? p).map f := by
  induction l with
  | nil => rfl
  | cons a l ih =>
      simp only [List.map_cons, List.find?_cons, hp]
      cases h : p a <;> simp [h, ih]

theorem statOf_some_key {st : List PlayerStats} {pid gid : Nat}
    {s : PlayerStats} (h : statOf st pid gid = some s) :
    s.player = pid ∧ s.game = gid := by
  have := List.find?_some h
  simpa using this

theorem statOf_some_mem {st : List PlayerStats} {pid gid : Nat}
    {s : PlayerStats} (h : statOf st pid gid = some s) : s ∈ st :=
  List.mem_of_find?_eq_some h

theorem statOf_resetStats_self (st : List PlayerStats) (pid gid : Nat) :
    statOf (resetStats gid st) pid gid = (statOf st pid gid).map resetRow := by
  unfold statOf resetStats
  rw [find?_map_pred]
  · cases h : st.find? (fun s => s.player == pid && s.game == gid) with
    | none => rfl
    | some s =>
        have hk := List.find?_some h
        simp only [Bool.and_eq_true, beq_iff_eq] at hk
        simp [hk.2]
  · intro a
    by_cases h : a.game == gid <;> simp [h, resetRow]

theorem statOf_resetStats_ne (st : List PlayerStats) (pid gid gid' : Nat)
    (h : gid' ≠ gid) :
    statOf (resetStats gid st) pid gid' = statOf st pid gid' := by
  unfold statOf resetStats
  rw [find?_map_pred]
  · cases hf : st.find? (fun s => s.player == pid && s.game == gid') with
    | none => rfl
    | some s =>
        have hk := List.find?_some hf
        simp only [Bool.and_eq_true, beq_iff_eq] at hk
        have hne : (s.game == gid) = false := by
          simp [hk.2]
          exact h
        simp only [Option.map_some', hne, Bool.false_eq_true, if_false]
  · intro a
    by_cases hg : a.game == gid <;> simp [hg, resetRow]

theorem statOf_writeStats_self (st : List PlayerStats) (s : PlayerStats) :
    statOf (writeStats st s) s.player s.game =
      (statOf st s.player s.game).map (fun _ => s) := by
  unfold statOf writeStats
  rw [find?_map_pred]
  · cases h : st.find? (fun t => t.player == s.player && t.game == s.game) with
    | none => rfl
    | some t =>
        have hk := List.find?_some h
        simp only [Option.map_some']
        rw [if_pos hk]
  · intro a
    by_cases h : (a.player == s.player && a.game == s.game)
    · rw [if_pos h, h]
      simp
    · rw [if_neg h]

theorem statOf_writeStats_ne (st : List PlayerStats) (s : PlayerStats)
    (pid gid : Nat) (h : ¬(pid = s.player ∧ gid = s.game)) :
    statOf (writeStats st s) pid gid = statOf st pid gid := by
  unfold statOf writeStats
  rw [find?_map_pred]
  · cases hf : st.find? (fun t => t.player == pid && t.game == gid) with
    | none => rfl
    | some t =>
        have hk := List.find?_some hf
        simp only [Bool.and_eq_true, beq_iff_eq] at hk
        have hne : (t.player == s.player && t.game == s.game) = false := by
          rcases Decidable.not_and_iff_or_not.mp h with h' | h'
          · have hne1 : t.player ≠ s.player := by
              rw [hk.1]; exact fun hh => h' hh
            simp [hne1]
          · have hne2 : t.game ≠ s.game := by
              rw [hk.2]; exact fun hh => h' hh
            simp [hne2]
        simp only [Option.map_some', hne, Bool.false_eq_true, if_false]
  · intro a
    by_cases ha : (a.player == s.player && a.game == s.game)
    · rw [if_pos ha]
      have hk : a.player = s.player ∧ a.game = s.game := by simpa using ha
      rw [hk.1, hk.2]
    · rw [if_neg ha]

theorem getOrCreate_fst (st : List PlayerStats) (pid gid : Nat) :
    (getOrCreate st pid gid).1 = (statOf st pid gid).getD (mkStats pid gid) := by
  unfold getOrCreate
  cases h : statOf st pid gid <;> simp [h]

theorem getOrCreate_fst_key (st : List PlayerStats) (pid gid : Nat) :
    (getOrCreate st pid gid).1.player = pid ∧
      (getOrCreate st pid gid).1.game = gid := by
  rw [getOrCreate_fst]
  cases h : statOf st pid gid with
  | none => simp [mkStats]
  | some s => simpa using statOf_some_key h

theorem statOf_getOrCreate_self (st : List PlayerStats) (pid gid : Nat) :
    statOf (getOrCreate st pid gid).2 pid gid =
      some (getOrCreate st pid gid).1 := by
  unfold getOrCreate
  cases h : statOf st pid gid with
  | some s => simp [h]
  | none =>
      simp only [h]
      unfold statOf at h ⊢
      rw [List.find?_append, h]
      simp [mkStats]

theorem statOf_getOrCreate_ne (st : List PlayerStats) (pid gid pid' gid' : Nat)
    (h : ¬(pid' = pid ∧ gid' = gid)) :
    statOf (getOrCreate st pid gid).2 pid' gid' = statOf st pid' gid' := by
  unfold getOrCreate
  cases hs : statOf st pid gid with
  | some s => simp
  | none =>
      simp only
      unfold statOf
      rw [List.find?_append]
      have hne : ((mkStats pid gid).player == pid' &&
          (mkStats pid gid).game == gid') = false := by
        rcases Decidable.not_and_iff_or_not.mp h with h' | h'
        · have hne1 : (mkStats pid gid).player ≠ pid' :=
            fun hh => h' hh.symm
          simp [hne1]
        · have hne2 : (mkStats pid gid).game ≠ gid' :=
            fun hh => h' hh.symm
          simp [hne2]
      simp [hne]

theorem statOf_applyUpd_self (gid pid : Nat) (f : PlayerStats → PlayerStats)
    (st : List PlayerStats) (hf : updOk f) :
    statOf (applyUpd gid pid f st) pid gid =
      some (f ((statOf st pid gid).getD (mkStats pid gid))) := by
  unfold applyUpd
  have hkey := getOrCreate_fst_key st pid gid
  have h1 : (f (getOrCreate st pid gid).1).player = pid := by
    rw [(hf _).1, hkey.1]
  have h2 : (f (getOrCreate st pid gid).1).game = gid := by
    rw [(hf _).2.1, hkey.2]
  have := statOf_writeStats_self (getOrCreate st pid gid).2
    (f (getOrCreate st pid gid).1)
  rw [h1, h2] at this
  rw [this, statOf_getOrCreate_self]
  simp [getOrCreate_fst]

theorem statOf_applyUpd_ne (gid pid : Nat) (f : PlayerStats → PlayerStats)
    (st : List PlayerStats) (pid' gid' : Nat) (hf : updOk f)
    (h : ¬(pid' = pid ∧ gid' = gid)) :
    statOf (applyUpd gid pid f st) pid' gid' = statOf st pid' gid' := by
  unfold applyUpd
  have hkey := getOrCreate_fst_key st pid gid
  have h1 : (f (getOrCreate st pid gid).1).player = pid := by
    rw [(hf _).1, hkey.1]
  have h2 : (f (getOrCreate st pid gid).1).game = gid := by
    rw [(hf _).2.1, hkey.2]
  rw [statOf_writeStats_ne _ _ _ _ (by rw [h1, h2]; exact h)]
  exact statOf_getOrCreate_ne st pid gid pid' gid' h

theorem statOf_runUpds (gid : Nat) (L : List StatsUpd) (st : List PlayerStats)
    (pid : Nat) (hL : ∀ u ∈ L, updOk u.2) :
    statOf (runUpds gid L st) pid gid =
      applyAll pid gid (L.filter (fun u => u.1 == pid))
        (statOf st pid gid) := by
  induction L generalizing st with
  | nil => rfl
  | cons u L ih =>
      have hu : updOk u.2 := hL u (List.mem_cons_self u L)
      have hrest : ∀ v ∈ L, updOk v.2 := fun v hv => hL v (List.mem_cons_of_mem u hv)
      show statOf (runUpds gid L (applyUpd gid u.1 u.2 st)) pid gid = _
      rw [ih _ hrest]
      by_cases hp : u.1 = pid
      · subst hp
        rw [statOf_applyUpd_self _ _ _ _ hu]
        rw [show (u :: L).filter (fun v => v.1 == u.1) =
              u :: L.filter (fun v => v.1 == u.1) by simp [List.filter_cons]]
        rw [applyAll_cons]
      · rw [statOf_applyUpd_ne _ _ _ _ _ _ hu (fun hc => hp hc.1.symm)]
        rw [show (u :: L).filter (fun v => v.1 == pid) =
              L.filter (fun v => v.1 == pid) by
            simp [List.filter_cons, hp]]

theorem statOf_runUpds_ne_game (gid : Nat) (L : List StatsUpd)
    (st : List PlayerStats) (pid gid' : Nat) (hL : ∀ u ∈ L, updOk u.2)
    (h : gid' ≠ gid) :
    statOf (runUpds gid L st) pid gid' = statOf st pid gid' := by
  induction L generalizing st with
  | nil => rfl
  | cons u L ih =>
      have hu : updOk u.2 := hL u (List.mem_cons_self u L)
      have hrest : ∀ v ∈ L, updOk v.2 := fun v hv => hL v (List.mem_cons_of_mem u hv)
      show statOf (runUpds gid L (applyUpd gid u.1 u.2 st)) pid gid' = _
      rw [ih _ hrest, statOf_applyUpd_ne _ _ _ _ _ _ hu (fun hc => h hc.2)]

/-! ### The five passes of `recompute_game` as update lists -/






theorem goalsStep_eq (db : DB) (g : Game) (st : List PlayerStats) :
    goalsStep db g st = runUpds g.id (goalUpdList db g.id) st := by
  unfold goalsStep runUpds goalUpdList
  rw [List.foldl_map]

theorem assistsStep_eq (db : DB) (g : Game) (f : Goal → Option Nat)
    (st : List PlayerStats) :
    assistsStep db g f st = runUpds g.id (assistUpdList db g.id f) st := by
  unfold assistsStep runUpds assistUpdList
  rw [List.foldl_map]

theorem penaltiesStep_eq (db : DB) (g : Game) (st : List PlayerStats) :
    penaltiesStep db g st = runUpds g.id (penUpdList db g.id) st := by
  unfold penaltiesStep runUpds penUpdList
  rw [List.foldl_map]

theorem foldl_filterMap_applyUpd {α : Type} (gid : Nat)
    (f : α → Option StatsUpd) (l : List α) (st : List PlayerStats) :
    l.foldl
      (fun st x =>
        match f x with
        | some u => applyUpd gid u.1 u.2 st
        | none => st) st
      = runUpds gid (l.filterMap f) st := by
  induction l generalizing st with
  | nil => rfl
  | cons x xs ih =>
      cases h : f x <;>
        simp only [List.foldl_cons, List.filterMap_cons, h, ih, runUpds]

theorem gaStep_eq (db : DB) (g : Game) (st : List PlayerStats) :
    gaStep db g st = runUpds g.id (gaUpdList db g) st := by
  unfold gaStep gaUpdList
  exact foldl_filterMap_applyUpd g.id (gaUpdOf db g) (goalieAssignments db g.id) st

theorem runUpds_append (gid : Nat) (A B : List StatsUpd)
    (st : List PlayerStats) :
    runUpds gid (A ++ B) st = runUpds gid B (runUpds gid A st) := by
  unfold runUpds
  rw [List.foldl_append]

theorem recomputeStats_eq (db : DB) (g : Game) :
    recomputeStats db g =
      runUpds g.id (updList db g) (resetStats g.id db.stats) := by
  unfold recomputeStats updList
  rw [goalsStep_eq, assistsStep_eq, assistsStep_eq, penaltiesStep_eq, gaStep_eq,
    runUpds_append, runUpds_append, runUpds_append, runUpds_append]

theorem updList_ok (db : DB) (g : Game) : ∀ u ∈ updList db g, updOk u.2 := by
  intro u hu
  unfold updList at hu
  simp only [List.mem_append] at hu
  rcases hu with ((((hu | hu) | hu) | hu) | hu)
  · rcases List.mem_map.mp hu with ⟨pid, _, rfl⟩
    exact fun s => ⟨rfl, rfl, rfl⟩
  · rcases List.mem_map.mp hu with ⟨pid, _, rfl⟩
    exact fun s => ⟨rfl, rfl, rfl⟩
  · rcases List.mem_map.mp hu with ⟨pid, _, rfl⟩
    exact fun s => ⟨rfl, rfl, rfl⟩
  · rcases List.mem_map.mp hu with ⟨pid, _, rfl⟩
    exact fun s => ⟨rfl, rfl, rfl⟩
  · rcases List.mem_filterMap.mp hu with ⟨x, _, hx⟩
    unfold gaUpdOf at hx
    cases hp : x.1.player with
    | none => simp [hp] at hx
    | some pid =>
        cases hq : findPlayer db pid with
        | none => simp [hp, hq] at hx
        | some p =>
            by_cases hpos : p.position = "goalie"
            · simp only [hp, hq, if_pos hpos, Option.some.injEq] at hx
              cases hx
              exact fun s => ⟨rfl, rfl, rfl⟩
            · simp [hp, hq, hpos] at hx


/-- Master characterisation of `recompute_game`: the stats row of
`(pid, g.id)` after the run is the reset stored row (or a fresh row), with the
player's own pending updates folded over it. -/
theorem statOf_recompute (db : DB) (g : Game) (pid : Nat) :
    statOf (recompute_game db g).stats pid g.id =
      applyAll pid g.id (updsFor db g pid)
        ((statOf db.stats pid g.id).map resetRow) := by
  show statOf (recomputeStats db g) pid g.id = _
  rw [recomputeStats_eq, statOf_runUpds _ _ _ _ (updList_ok db g),
    statOf_resetStats_self]
  rfl

/-- Rows of other games are not touched by a run. -/
theorem statOf_recompute_ne_game (db : DB) (g : Game) (pid gid' : Nat)
    (h : gid' ≠ g.id) :
    statOf (recompute_game db g).stats pid gid' = statOf db.stats pid gid' := by
  show statOf (recomputeStats db g) pid gid' = _
  rw [recomputeStats_eq, statOf_runUpds_ne_game _ _ _ _ _ (updList_ok db g) h,
    statOf_resetStats_ne _ _ _ _ h]

/-! ### The per-player update sequence, pass by pass -/


theorem statsFold_append (A B : List StatsUpd) (s : PlayerStats) :
    statsFold (A ++ B) s = statsFold B (statsFold A s) := by
  unfold statsFold
  rw [List.foldl_append]

theorem filter_beq_of_nodup (l : List Nat) (h : l.Nodup) (pid : Nat) :
    l.filter (fun x => x == pid) = if pid ∈ l then [pid] else [] := by
  induction l with
  | nil => simp
  | cons x xs ih =>
      rw [List.nodup_cons] at h
      by_cases hx : x = pid
      · subst hx
        have : xs.filter (fun y => y == x) = [] :=
          List.filter_eq_nil_iff.mpr (fun a ha hax => h.1 (by
            have : a = x := by simpa using hax
            exact this ▸ ha))
        simp [List.filter_cons, this]
      · rw [List.filter_cons]
        have hb : (x == pid) = false := by simp [hx]
        simp only [hb, Bool.false_eq_true, if_false, ih h.2]
        have hiff : (pid ∈ x :: xs) ↔ (pid ∈ xs) := by
          constructor
          · intro hm
            rcases List.mem_cons.mp hm with hm | hm
            · exact absurd hm.symm hx
            · exact hm
          · exact fun hm => List.mem_cons_of_mem _ hm
        by_cases hmem : pid ∈ xs
        · rw [if_pos hmem, if_pos (hiff.mpr hmem)]
        · rw [if_neg hmem, if_neg (fun hm => hmem (hiff.mp hm))]

theorem filter_key_of_nodup_map {α : Type} (l : List (Nat × α))
    (h : (l.map Prod.fst).Nodup) (u : Nat × α) (hu : u ∈ l) :
    l.filter (fun v => v.1 == u.1) = [u] := by
  induction l with
  | nil => cases hu
  | cons v vs ih =>
      rw [List.map_cons, List.nodup_cons] at h
      rcases List.mem_cons.mp hu with hvu | hvu
      · subst hvu
        have : vs.filter (fun w => w.1 == u.1) = [] :=
          List.filter_eq_nil_iff.mpr (fun w hw hwk => h.1 (by
            have : w.1 = u.1 := by simpa using hwk
            exact this ▸ List.mem_map_of_mem Prod.fst hw))
        simp [List.filter_cons, this]
      · have hne : (v.1 == u.1) = false := by
          simp only [beq_eq_false_iff_ne, ne_eq]
          intro hh
          exact h.1 (hh ▸ List.mem_map_of_mem Prod.fst hvu)
        rw [List.filter_cons]
        simp only [hne, Bool.false_eq_true, if_false]
        exact ih h.2 hvu

theorem scorers_nodup (db : DB) (gid : Nat) : (scorers db gid).Nodup :=
  List.nodup_dedup _

theorem assistPids_nodup (db : DB) (gid : Nat) (f : Goal → Option Nat) :
    (assistPids db gid f).Nodup :=
  List.nodup_dedup _

theorem penPids_nodup (db : DB) (gid : Nat) : (penPids db gid).Nodup :=
  List.nodup_dedup _

theorem scorerCount_eq_zero (db : DB) (gid pid : Nat)
    (h : pid ∉ scorers db gid) : scorerCount db gid pid = 0 := by
  unfold scorerCount
  rw [List.length_eq_zero, List.filter_eq_nil_iff]
  intro gl hgl hb
  have hs : gl.scorer = pid := by simpa using hb
  exact h (List.mem_dedup.mpr (hs ▸ List.mem_map_of_mem _ hgl))

theorem assistCount_eq_zero (db : DB) (gid : Nat) (f : Goal → Option Nat)
    (pid : Nat) (h : pid ∉ assistPids db gid f) :
    assistCount db gid f pid = 0 := by
  unfold assistCount
  rw [List.length_eq_zero, List.filter_eq_nil_iff]
  intro x hx hb
  have : x = pid := by simpa using hb
  exact h (List.mem_dedup.mpr (this ▸ hx))

theorem penMinutes_eq_zero (db : DB) (gid pid : Nat)
    (h : pid ∉ penPids db gid) : penMinutes db gid pid = 0 := by
  unfold penMinutes
  apply List.sum_eq_zero
  intro m hm
  rcases List.mem_map.mp hm with ⟨p, hp, rfl⟩
  rcases List.mem_filter.mp hp with ⟨hpm, hpk⟩
  simp only [Bool.and_eq_true, beq_iff_eq] at hpk
  have hmem : pid ∈ penPids db gid := by
    unfold penPids
    exact List.mem_dedup.mpr
      (hpk.2 ▸ List.mem_map_of_mem _ (List.mem_filter.mpr ⟨hpm, by simp [hpk.1]⟩))
  exact absurd hmem h

theorem goalFor_eq (db : DB) (gid pid : Nat) :
    (goalUpdList db gid).filter (fun u => u.1 == pid) =
      if pid ∈ scorers db gid then [(pid, goalUpdFn db gid pid)] else [] := by
  unfold goalUpdList
  rw [List.filter_map,
    show ((fun u : StatsUpd => u.1 == pid) ∘ fun q => (q, goalUpdFn db gid q)) =
      (fun x => x == pid) from rfl,
    filter_beq_of_nodup _ (scorers_nodup db gid) pid]
  by_cases h : pid ∈ scorers db gid <;> simp [h]

theorem assistFor_eq (db : DB) (gid : Nat) (f : Goal → Option Nat) (pid : Nat) :
    (assistUpdList db gid f).filter (fun u => u.1 == pid) =
      if pid ∈ assistPids db gid f then [(pid, assistUpdFn db gid f pid)]
      else [] := by
  unfold assistUpdList
  rw [List.filter_map,
    show ((fun u : StatsUpd => u.1 == pid) ∘ fun q => (q, assistUpdFn db gid f q)) =
      (fun x => x == pid) from rfl,
    filter_beq_of_nodup _ (assistPids_nodup db gid f) pid]
  by_cases h : pid ∈ assistPids db gid f <;> simp [h]

theorem penFor_eq (db : DB) (gid pid : Nat) :
    (penUpdList db gid).filter (fun u => u.1 == pid) =
      if pid ∈ penPids db gid then [(pid, penUpdFn db gid pid)] else [] := by
  unfold penUpdList
  rw [List.filter_map,
    show ((fun u : StatsUpd => u.1 == pid) ∘ fun q => (q, penUpdFn db gid q)) =
      (fun x => x == pid) from rfl,
    filter_beq_of_nodup _ (penPids_nodup db gid) pid]
  by_cases h : pid ∈ penPids db gid <;> simp [h]


theorem gaFor_eq_nil (db : DB) (g : Game) (pid : Nat) (h : pid ∉ gaPids db g) :
    (gaUpdList db g).filter (fun u => u.1 == pid) = [] :=
  List.filter_eq_nil_iff.mpr (fun u hu hb => h (by
    have hk : u.1 = pid := by simpa using hb
    exact hk ▸ List.mem_map_of_mem Prod.fst hu))

theorem gaUpdList_shape (db : DB) (g : Game) :
    ∀ u ∈ gaUpdList db g,
      ∃ n, u.2 = fun s => { s with goals_against := n } := by
  intro u hu
  unfold gaUpdList at hu
  rcases List.mem_filterMap.mp hu with ⟨x, _, hx⟩
  unfold gaUpdOf at hx
  cases hp : x.1.player with
  | none => simp [hp] at hx
  | some pid =>
      cases hq : findPlayer db pid with
      | none => simp [hp, hq] at hx
      | some p =>
          by_cases hpos : p.position = "goalie"
          · simp only [hp, hq, if_pos hpos, Option.some.injEq] at hx
            exact ⟨concededFor g x.2, by rw [← hx]⟩
          · simp [hp, hq, hpos] at hx

theorem statsFold_ga_aux (us : List StatsUpd)
    (hus : ∀ u ∈ us, ∃ n, u.2 = fun s => { s with goals_against := n })
    (s : PlayerStats) :
    (statsFold us s).player = s.player ∧ (statsFold us s).game = s.game ∧
      (statsFold us s).points = s.points ∧
      (statsFold us s).goals = s.goals ∧
      (statsFold us s).assists = s.assists ∧
      (statsFold us s).shots = s.shots ∧
      (statsFold us s).penalty_minutes = s.penalty_minutes := by
  induction us generalizing s with
  | nil => exact ⟨rfl, rfl, rfl, rfl, rfl, rfl, rfl⟩
  | cons u us ih =>
      rcases hus u (List.mem_cons_self u us) with ⟨n, hn⟩
      have hrest := fun v hv => hus v (List.mem_cons_of_mem u hv)
      have hstep : statsFold (u :: us) s =
          statsFold us { s with goals_against := n } := by
        show statsFold us (u.2 s) = _
        rw [hn]
      rw [hstep]
      obtain ⟨h1, h2, h3, h4, h5, h6, h7⟩ := ih hrest { s with goals_against := n }
      exact ⟨h1, h2, h3, h4, h5, h6, h7⟩


theorem updList_split (db : DB) (g : Game) :
    updList db g = eventUpdList db g ++ gaUpdList db g := rfl

/-- Effect of the four event passes on a row whose counters are reset. -/
theorem statsFold_eventUpds (db : DB) (g : Game) (pid pl gm sh : Nat) :
    statsFold ((eventUpdList db g).filter (fun u => u.1 == pid))
        ⟨pl, gm, 0, 0, 0, sh, 0, 0⟩ =
      ⟨pl, gm,
        scorerCount db g.id pid +
          (assistCount db g.id (fun gl => gl.assist_1) pid +
            assistCount db g.id (fun gl => gl.assist_2) pid),
        scorerCount db g.id pid,
        assistCount db g.id (fun gl => gl.assist_1) pid +
          assistCount db g.id (fun gl => gl.assist_2) pid,
        sh, penMinutes db g.id pid, 0⟩ := by
  unfold eventUpdList
  rw [List.filter_append, List.filter_append, List.filter_append,
    statsFold_append, statsFold_append, statsFold_append]
  have e1 : statsFold ((goalUpdList db g.id).filter (fun u => u.1 == pid))
      (⟨pl, gm, 0, 0, 0, sh, 0, 0⟩ : PlayerStats) =
      ⟨pl, gm, scorerCount db g.id pid, scorerCount db g.id pid, 0, sh, 0, 0⟩ := by
    rw [goalFor_eq]
    by_cases h : pid ∈ scorers db g.id
    · rw [if_pos h]
      show goalUpdFn db g.id pid _ = _
      unfold goalUpdFn
      simp
    · rw [if_neg h, scorerCount_eq_zero db g.id pid h]
      rfl
  rw [e1]
  have e2 : statsFold
      ((assistUpdList db g.id (fun gl => gl.assist_1)).filter
        (fun u => u.1 == pid))
      (⟨pl, gm, scorerCount db g.id pid, scorerCount db g.id pid, 0, sh, 0, 0⟩ :
        PlayerStats) =
      ⟨pl, gm,
        scorerCount db g.id pid +
          assistCount db g.id (fun gl => gl.assist_1) pid,
        scorerCount db g.id pid,
        assistCount db g.id (fun gl => gl.assist_1) pid, sh, 0, 0⟩ := by
    rw [assistFor_eq]
    by_cases h : pid ∈ assistPids db g.id (fun gl => gl.assist_1)
    · rw [if_pos h]
      show assistUpdFn db g.id _ pid _ = _
      unfold assistUpdFn
      simp
    · rw [if_neg h, assistCount_eq_zero db g.id _ pid h]
      simp [statsFold]
  rw [e2]
  have e3 : statsFold
      ((assistUpdList db g.id (fun gl => gl.assist_2)).filter
        (fun u => u.1 == pid))
      (⟨pl, gm,
        scorerCount db g.id pid +
          assistCount db g.id (fun gl => gl.assist_1) pid,
        scorerCount db g.id pid,
        assistCount db g.id (fun gl => gl.assist_1) pid, sh, 0, 0⟩ :
        PlayerStats) =
      ⟨pl, gm,
        scorerCount db g.id pid +
          (assistCount db g.id (fun gl => gl.assist_1) pid +
            assistCount db g.id (fun gl => gl.assist_2) pid),
        scorerCount db g.id pid,
        assistCount db g.id (fun gl => gl.assist_1) pid +
          assistCount db g.id (fun gl => gl.assist_2) pid, sh, 0, 0⟩ := by
    rw [assistFor_eq]
    by_cases h : pid ∈ assistPids db g.id (fun gl => gl.assist_2)
    · rw [if_pos h]
      show assistUpdFn db g.id _ pid _ = _
      unfold assistUpdFn
      simp [Nat.add_assoc]
    · rw [if_neg h, assistCount_eq_zero db g.id _ pid h]
      simp [statsFold]
  rw [e3]
  have e4 : statsFold
      ((penUpdList db g.id).filter (fun u => u.1 == pid))
      (⟨pl, gm,
        scorerCount db g.id pid +
          (assistCount db g.id (fun gl => gl.assist_1) pid +
            assistCount db g.id (fun gl => gl.assist_2) pid),
        scorerCount db g.id pid,
        assistCount db g.id (fun gl => gl.assist_1) pid +
          assistCount db g.id (fun gl => gl.assist_2) pid, sh, 0, 0⟩ :
        PlayerStats) =
      ⟨pl, gm,
        scorerCount db g.id pid +
          (assistCount db g.id (fun gl => gl.assist_1) pid +
            assistCount db g.id (fun gl => gl.assist_2) pid),
        scorerCount db g.id pid,
        assistCount db g.id (fun gl => gl.assist_1) pid +
          assistCount db g.id (fun gl => gl.assist_2) pid,
        sh, penMinutes db g.id pid, 0⟩ := by
    rw [penFor_eq]
    by_cases h : pid ∈ penPids db g.id
    · rw [if_pos h]
      rfl
    · rw [if_neg h, penMinutes_eq_zero db g.id pid h]
      rfl
  rw [e4]

theorem applyAll_some_fold (pid gid : Nat) (us : List StatsUpd)
    (os : Option PlayerStats) (r : PlayerStats)
    (h : applyAll pid gid us os = some r) :
    ∃ s₀, (os = some s₀ ∨ (os = none ∧ s₀ = mkStats pid gid)) ∧
      r = statsFold us s₀ := by
  cases os with
  | none =>
      cases us with
      | nil => cases h
      | cons u us' =>
          refine ⟨mkStats pid gid, Or.inr ⟨rfl, rfl⟩, ?_⟩
          have : applyAll pid gid (u :: us') none =
              some (statsFold (u :: us') (mkStats pid gid)) := rfl
          rw [this] at h
          exact (Option.some.injEq _ _ ▸ h).symm
  | some s₀ =>
      refine ⟨s₀, Or.inl rfl, ?_⟩
      cases us with
      | nil =>
          have : r = s₀ := by
            rw [applyAll_nil] at h
            exact (Option.some.injEq _ _ ▸ h).symm
          rw [this]
          rfl
      | cons u us' =>
          have : applyAll pid gid (u :: us') (some s₀) =
              some (statsFold (u :: us') s₀) := rfl
          rw [this] at h
          exact (Option.some.injEq _ _ ▸ h).symm

/-- Field values of the stats row of any (player, game) key present after a
run: goals, assists, points and penalty minutes are the event aggregates, and
`goals_against` is `0` for a player the goals-against pass does not touch. -/
theorem recompute_row_fields (db : DB) (g : Game) (pid : Nat)
    (r : PlayerStats)
    (h : statOf (recompute_game db g).stats pid g.id = some r) :
    r.goals = scorerCount db g.id pid ∧
      r.assists = assistCount db g.id (fun gl => gl.assist_1) pid +
        assistCount db g.id (fun gl => gl.assist_2) pid ∧
      r.points = r.goals + r.assists ∧
      r.penalty_minutes = penMinutes db g.id pid ∧
      (pid ∉ gaPids db g → r.goals_against = 0) := by
  rw [statOf_recompute] at h
  obtain ⟨s₀, hs₀, rfl⟩ := applyAll_some_fold _ _ _ _ _ h
  have hz : ∃ pl gm sh, s₀ = (⟨pl, gm, 0, 0, 0, sh, 0, 0⟩ : PlayerStats) := by
    rcases hs₀ with hs | ⟨_, rfl⟩
    · rcases Option.map_eq_some'.mp hs with ⟨r₀, _, hr₀⟩
      obtain ⟨pl, gm, a, b, c, sh, d, e⟩ := r₀
      exact ⟨pl, gm, sh, hr₀.symm⟩
    · exact ⟨pid, g.id, 0, rfl⟩
  obtain ⟨pl, gm, sh, rfl⟩ := hz
  have hsplit : updsFor db g pid =
      (eventUpdList db g).filter (fun u => u.1 == pid) ++
        (gaUpdList db g).filter (fun u => u.1 == pid) := by
    unfold updsFor
    rw [updList_split, List.filter_append]
  rw [hsplit, statsFold_append, statsFold_eventUpds]
  have hga := statsFold_ga_aux
    ((gaUpdList db g).filter (fun u => u.1 == pid))
    (fun u hu => gaUpdList_shape db g u (List.mem_of_mem_filter hu))
    ⟨pl, gm,
      scorerCount db g.id pid +
        (assistCount db g.id (fun gl => gl.assist_1) pid +
          assistCount db g.id (fun gl => gl.assist_2) pid),
      scorerCount db g.id pid,
      assistCount db g.id (fun gl => gl.assist_1) pid +
        assistCount db g.id (fun gl => gl.assist_2) pid,
      sh, penMinutes db g.id pid, 0⟩
  obtain ⟨_, _, h3, h4, h5, _, h7⟩ := hga
  refine ⟨h4, h5, ?_, h7, ?_⟩
  · rw [h3, h4, h5]
  · intro hnot
    rw [gaFor_eq_nil db g pid hnot]
    rfl

/-! ### Uniqueness of the (player, game) key and row membership -/


theorem statOf_of_mem (st : List PlayerStats) (r : PlayerStats)
    (hu : StatsUnique st) (hr : r ∈ st) :
    statOf st r.player r.game = some r := by
  induction st with
  | nil => cases hr
  | cons s rest ih =>
      unfold StatsUnique at hu
      rw [List.map_cons, List.nodup_cons] at hu
      rcases List.mem_cons.mp hr with rfl | hr'
      · unfold statOf
        rw [List.find?_cons]
        simp
      · have hb : (s.player == r.player && s.game == r.game) = false := by
          by_cases h1 : s.player = r.player
          · by_cases h2 : s.game = r.game
            · refine absurd ?_ hu.1
              rw [h1, h2]
              exact List.mem_map_of_mem _ hr'
            · simp [h2]
          · simp [h1]
        unfold statOf
        rw [List.find?_cons]
        simp only [hb]
        exact ih hu.2 hr'

theorem statOf_eq_none_iff (st : List PlayerStats) (pid gid : Nat) :
    statOf st pid gid = none ↔
      (pid, gid) ∉ st.map (fun s => (s.player, s.game)) := by
  unfold statOf
  rw [List.find?_eq_none]
  constructor
  · intro h hmem
    rcases List.mem_map.mp hmem with ⟨s, hs, hkey⟩
    apply h s hs
    have h1 : s.player = pid := congrArg Prod.fst hkey
    have h2 : s.game = gid := congrArg Prod.snd hkey
    simp [h1, h2]
  · intro h s hs hp
    simp only [Bool.and_eq_true, beq_iff_eq] at hp
    exact h (by rw [← hp.1, ← hp.2]; exact List.mem_map_of_mem _ hs)

theorem keys_writeStats (st : List PlayerStats) (s : PlayerStats) :
    (writeStats st s).map (fun t => (t.player, t.game)) =
      st.map (fun t => (t.player, t.game)) := by
  unfold writeStats
  rw [List.map_map]
  apply List.map_congr_left
  intro t _
  by_cases hc : (t.player == s.player && t.game == s.game)
  · have hk : t.player = s.player ∧ t.game = s.game := by simpa using hc
    simp only [Function.comp_apply, if_pos hc]
    rw [hk.1, hk.2]
  · simp only [Function.comp_apply, if_neg hc]

theorem keys_resetStats (gid : Nat) (st : List PlayerStats) :
    (resetStats gid st).map (fun t => (t.player, t.game)) =
      st.map (fun t => (t.player, t.game)) := by
  unfold resetStats
  rw [List.map_map]
  apply List.map_congr_left
  intro t _
  by_cases hc : (t.game == gid)
  · simp only [Function.comp_apply, if_pos hc]
    rfl
  · simp only [Function.comp_apply, if_neg hc]

theorem keys_applyUpd (gid pid : Nat) (f : PlayerStats → PlayerStats)
    (st : List PlayerStats) (_hf : updOk f) :
    (applyUpd gid pid f st).map (fun t => (t.player, t.game)) =
        st.map (fun t => (t.player, t.game)) ∨
      ((applyUpd gid pid f st).map (fun t => (t.player, t.game)) =
          st.map (fun t => (t.player, t.game)) ++ [(pid, gid)] ∧
        (pid, gid) ∉ st.map (fun t => (t.player, t.game))) := by
  unfold applyUpd getOrCreate
  cases hs : statOf st pid gid with
  | some s =>
      left
      simp only [hs]
      exact keys_writeStats _ _
  | none =>
      right
      simp only [hs]
      constructor
      · rw [keys_writeStats, List.map_append]
        rfl
      · exact (statOf_eq_none_iff st pid gid).mp hs

theorem keys_runUpds_extend (gid : Nat) (L : List StatsUpd)
    (st : List PlayerStats) (hL : ∀ u ∈ L, updOk u.2) :
    ∃ ext, (runUpds gid L st).map (fun t => (t.player, t.game)) =
      st.map (fun t => (t.player, t.game)) ++ ext := by
  induction L generalizing st with
  | nil => exact ⟨[], by simp [runUpds]⟩
  | cons u L ih =>
      have hu : updOk u.2 := hL u (List.mem_cons_self u L)
      have hrest : ∀ v ∈ L, updOk v.2 :=
        fun v hv => hL v (List.mem_cons_of_mem u hv)
      obtain ⟨ext, hext⟩ := ih (applyUpd gid u.1 u.2 st) hrest
      rcases keys_applyUpd gid u.1 u.2 st hu with hk | ⟨hk, _⟩
      · exact ⟨ext, by
          show (runUpds gid L (applyUpd gid u.1 u.2 st)).map _ = _
          rw [hext, hk]⟩
      · exact ⟨(u.1, gid) :: ext, by
          show (runUpds gid L (applyUpd gid u.1 u.2 st)).map _ = _
          rw [hext, hk, List.append_assoc]
          rfl⟩

theorem StatsUnique_applyUpd (gid pid : Nat) (f : PlayerStats → PlayerStats)
    (st : List PlayerStats) (hf : updOk f) (hu : StatsUnique st) :
    StatsUnique (applyUpd gid pid f st) := by
  unfold StatsUnique at *
  rcases keys_applyUpd gid pid f st hf with hk | ⟨hk, hnot⟩
  · rw [hk]; exact hu
  · rw [hk, List.nodup_append]
    exact ⟨hu, List.nodup_singleton _,
      fun x hx hx' => by
        have : x = (pid, gid) := by simpa using hx'
        exact hnot (this ▸ hx)⟩

theorem StatsUnique_runUpds (gid : Nat) (L : List StatsUpd)
    (st : List PlayerStats) (hL : ∀ u ∈ L, updOk u.2)
    (hu : StatsUnique st) : StatsUnique (runUpds gid L st) := by
  induction L generalizing st with
  | nil => exact hu
  | cons u L ih =>
      have h1 : updOk u.2 := hL u (List.mem_cons_self u L)
      have hrest : ∀ v ∈ L, updOk v.2 :=
        fun v hv => hL v (List.mem_cons_of_mem u hv)
      exact ih (applyUpd gid u.1 u.2 st) hrest
        (StatsUnique_applyUpd gid u.1 u.2 st h1 hu)

theorem StatsUnique_resetStats (gid : Nat) (st : List PlayerStats)
    (hu : StatsUnique st) : StatsUnique (resetStats gid st) := by
  unfold StatsUnique at *
  rw [keys_resetStats]
  exact hu

/-- `recompute_game` cannot create a duplicate (player, game) stats row. -/
theorem StatsUnique_recompute (db : DB) (g : Game) (hu : StatsUnique db.stats) :
    StatsUnique (recompute_game db g).stats := by
  show StatsUnique (recomputeStats db g)
  rw [recomputeStats_eq]
  exact StatsUnique_runUpds _ _ _ (updList_ok db g)
    (StatsUnique_resetStats _ _ hu)

/-! ### Frame: rows of other games are left unchanged row-for-row -/

theorem others_resetStats (gid : Nat) (st : List PlayerStats) :
    (resetStats gid st).filter (fun s => s.game != gid) =
      st.filter (fun s => s.game != gid) := by
  induction st with
  | nil => rfl
  | cons s rest ih =>
      show ((if s.game == gid then resetRow s else s) ::
        resetStats gid rest).filter _ = _
      by_cases hg : s.game == gid
      · have hrg : ((resetRow s).game != gid) = false := by
          have : (resetRow s).game = s.game := rfl
          simp only [this, bne]
          simp [hg]
        have hsg : (s.game != gid) = false := by
          simp only [bne]
          simp [hg]
        rw [if_pos hg, List.filter_cons, List.filter_cons, hrg, hsg]
        simpa using ih
      · have hsg : (s.game != gid) = true := by
          simp only [bne]
          simp [hg]
        rw [if_neg hg, List.filter_cons, List.filter_cons, hsg]
        simp only [if_true, ih]

theorem others_writeStats (gid : Nat) (st : List PlayerStats)
    (s : PlayerStats) (hs : s.game = gid) :
    (writeStats st s).filter (fun t => t.game != gid) =
      st.filter (fun t => t.game != gid) := by
  induction st with
  | nil => rfl
  | cons t rest ih =>
      show ((if t.player == s.player && t.game == s.game then s else t) ::
        writeStats rest s).filter _ = _
      by_cases hc : (t.player == s.player && t.game == s.game)
      · have ht : t.game = gid := by
          have hk : t.player = s.player ∧ t.game = s.game := by simpa using hc
          rw [hk.2, hs]
        have h1 : (s.game != gid) = false := by
          simp [bne, hs]
        have h2 : (t.game != gid) = false := by
          simp [bne, ht]
        rw [if_pos hc, List.filter_cons, List.filter_cons, h1, h2]
        simpa using ih
      · rw [if_neg hc, List.filter_cons, List.filter_cons]
        by_cases ht : (t.game != gid) <;> simp only [ht, if_true, if_false, ih,
          Bool.false_eq_true]

theorem others_applyUpd (gid pid : Nat) (f : PlayerStats → PlayerStats)
    (st : List PlayerStats) (hf : updOk f) :
    (applyUpd gid pid f st).filter (fun t => t.game != gid) =
      st.filter (fun t => t.game != gid) := by
  unfold applyUpd
  have hkey := getOrCreate_fst_key st pid gid
  have hgame : (f (getOrCreate st pid gid).1).game = gid := by
    rw [(hf _).2.1, hkey.2]
  rw [others_writeStats gid _ _ hgame]
  unfold getOrCreate
  cases hg : statOf st pid gid with
  | some s => rfl
  | none =>
      show (st ++ [mkStats pid gid]).filter _ = _
      rw [List.filter_append]
      have : ((mkStats pid gid).game != gid) = false := by
        simp [mkStats, bne]
      simp [this]

theorem others_runUpds (gid : Nat) (L : List StatsUpd) (st : List PlayerStats)
    (hL : ∀ u ∈ L, updOk u.2) :
    (runUpds gid L st).filter (fun t => t.game != gid) =
      st.filter (fun t => t.game != gid) := by
  induction L generalizing st with
  | nil => rfl
  | cons u L ih =>
      have hu : updOk u.2 := hL u (List.mem_cons_self u L)
      have hrest : ∀ v ∈ L, updOk v.2 :=
        fun v hv => hL v (List.mem_cons_of_mem u hv)
      show (runUpds gid L (applyUpd gid u.1 u.2 st)).filter _ = _
      rw [ih _ hrest, others_applyUpd _ _ _ _ hu]

theorem others_recompute (db : DB) (g : Game) :
    (recompute_game db g).stats.filter (fun t => t.game != g.id) =
      db.stats.filter (fun t => t.game != g.id) := by
  show (recomputeStats db g).filter _ = _
  rw [recomputeStats_eq, others_runUpds _ _ _ (updList_ok db g),
    others_resetStats]

/-! ### Idempotence machinery -/

theorem statsFold_preserves (us : List StatsUpd)
    (hok : ∀ u ∈ us, updOk u.2) (s : PlayerStats) :
    (statsFold us s).player = s.player ∧ (statsFold us s).game = s.game ∧
      (statsFold us s).shots = s.shots := by
  induction us generalizing s with
  | nil => exact ⟨rfl, rfl, rfl⟩
  | cons u us ih =>
      have hu := hok u (List.mem_cons_self u us)
      have hrest := fun v hv => hok v (List.mem_cons_of_mem u hv)
      show (statsFold us (u.2 s)).player = _ ∧ _
      obtain ⟨h1, h2, h3⟩ := ih hrest (u.2 s)
      exact ⟨h1.trans (hu s).1, h2.trans (hu s).2.1, h3.trans (hu s).2.2⟩

theorem applyAll_ne_nil (pid gid : Nat) (us : List StatsUpd)
    (os : Option PlayerStats) (h : us ≠ []) :
    applyAll pid gid us os =
      some (statsFold us (os.getD (mkStats pid gid))) := by
  cases us with
  | nil => exact absurd rfl h
  | cons u us' => rfl

theorem resetRow_statsFold (us : List StatsUpd)
    (hok : ∀ u ∈ us, updOk u.2) (s : PlayerStats)
    (hz : resetRow s = s) :
    resetRow (statsFold us s) = s := by
  obtain ⟨h1, h2, h3⟩ := statsFold_preserves us hok s
  have : resetRow (statsFold us s) =
      ⟨(statsFold us s).player, (statsFold us s).game, 0, 0, 0,
        (statsFold us s).shots, 0, 0⟩ := rfl
  rw [this, h1, h2, h3]
  have hs : s = ⟨s.player, s.game, s.points, s.goals, s.assists, s.shots,
      s.penalty_minutes, s.goals_against⟩ := rfl
  rw [hs] at hz ⊢
  exact hz

theorem applyAll_reset_idem (pid gid : Nat) (us : List StatsUpd)
    (hok : ∀ u ∈ us, updOk u.2) (os : Option PlayerStats) :
    applyAll pid gid us
        ((applyAll pid gid us (os.map resetRow)).map resetRow) =
      applyAll pid gid us (os.map resetRow) := by
  cases us with
  | nil =>
      rw [applyAll_nil, applyAll_nil]
      cases os with
      | none => rfl
      | some r => rfl
  | cons u us' =>
      have hne : (u :: us') ≠ ([] : List StatsUpd) := by simp
      rw [applyAll_ne_nil _ _ _ _ hne, applyAll_ne_nil _ _ _ _ hne]
      have hzd : resetRow ((os.map resetRow).getD (mkStats pid gid)) =
          (os.map resetRow).getD (mkStats pid gid) := by
        cases os with
        | none => rfl
        | some r => rfl
      congr 1
      have hmid : ((some (statsFold (u :: us')
          ((os.map resetRow).getD (mkStats pid gid)))).map resetRow).getD
            (mkStats pid gid) =
          resetRow (statsFold (u :: us')
            ((os.map resetRow).getD (mkStats pid gid))) := rfl
      rw [hmid, resetRow_statsFold _ hok _ hzd]

/-! ### Further aggregate bridges -/

theorem assistCount_eq_filter (db : DB) (gid : Nat) (f : Goal → Option Nat)
    (pid : Nat) :
    assistCount db gid f pid =
      ((goalsOf db gid).filter (fun gl => f gl == some pid)).length := by
  unfold assistCount assistVals
  generalize goalsOf db gid = l
  induction l with
  | nil => rfl
  | cons gl l ih =>
      cases hf : f gl with
      | none =>
          have hc : (f gl == some pid) = false := by rw [hf]; rfl
          simp only [List.filterMap_cons, hf, List.filter_cons, hc,
            Bool.false_eq_true, if_false]
          exact ih
      | some x =>
          have hc : (f gl == some pid) = (x == pid) := by rw [hf]; rfl
          simp only [List.filterMap_cons, hf, List.filter_cons, hc]
          by_cases hx : (x == pid)
          · simp [List.filter_cons, hx, ih]
          · simp [List.filter_cons, hx, ih]

theorem scorerCount_eq_zero_of (db : DB) (gid pid : Nat)
    (h : ∀ gl ∈ goalsOf db gid, gl.scorer ≠ pid) :
    scorerCount db gid pid = 0 := by
  unfold scorerCount
  rw [List.length_eq_zero, List.filter_eq_nil_iff]
  intro gl hgl hb
  exact h gl hgl (by simpa using hb)

theorem assistCount_eq_zero_of (db : DB) (gid : Nat) (f : Goal → Option Nat)
    (pid : Nat) (h : ∀ gl ∈ goalsOf db gid, f gl ≠ some pid) :
    assistCount db gid f pid = 0 := by
  rw [assistCount_eq_filter, List.length_eq_zero, List.filter_eq_nil_iff]
  intro gl hgl hb
  exact h gl hgl (by simpa using hb)

theorem penMinutes_eq_zero_of (db : DB) (gid pid : Nat)
    (h : ∀ pn ∈ db.penalties, pn.game = gid → pn.penalized_player ≠ pid) :
    penMinutes db gid pid = 0 := by
  unfold penMinutes
  apply List.sum_eq_zero
  intro m hm
  rcases List.mem_map.mp hm with ⟨p, hp, rfl⟩
  rcases List.mem_filter.mp hp with ⟨hpm, hpk⟩
  simp only [Bool.and_eq_true, beq_iff_eq] at hpk
  exact absurd hpk.2 (h p hpm hpk.1)

theorem gaUpdOf_player (db : DB) (g : Game) (x : LineAssignment × Line)
    (u : StatsUpd) (h : gaUpdOf db g x = some u) : x.1.player = some u.1 := by
  unfold gaUpdOf at h
  cases hp : x.1.player with
  | none => simp [hp] at h
  | some pid =>
      cases hq : findPlayer db pid with
      | none => simp [hp, hq] at h
      | some p =>
          by_cases hpos : p.position = "goalie"
          · simp only [hp, hq, if_pos hpos, Option.some.injEq] at h
            rw [← h]
          · simp [hp, hq, hpos] at h

theorem gaPids_not_mem_of (db : DB) (g : Game) (pid : Nat)
    (h : ∀ x ∈ goalieAssignments db g.id, x.1.player ≠ some pid) :
    pid ∉ gaPids db g := by
  intro hmem
  rcases List.mem_map.mp hmem with ⟨u, hu, hupid⟩
  rcases List.mem_filterMap.mp hu with ⟨x, hx, hxu⟩
  exact h x hx (by rw [gaUpdOf_player db g x u hxu, hupid])

/-! ### Claim theorems -/

/-- **C1.** After `recompute_game(g)` completes, for every player with a
`PlayerStats` row for game `g`: `goals` equals the number of `Goal` rows of
`g` whose scorer is that player; `assists` equals the number of `Goal` rows
where the player is `assist_1` plus the number where the player is
`assist_2`; and `points` equals `goals + assists`. -/
theorem recompute_game_counts_correct (db : DB) (g : Game) (r : PlayerStats)
    (hu : StatsUnique db.stats)
    (hr : r ∈ (recompute_game db g).stats) (hg : r.game = g.id) :
    r.goals =
        ((goalsOf db g.id).filter (fun gl => gl.scorer == r.player)).length ∧
      r.assists =
        ((goalsOf db g.id).filter
            (fun gl => gl.assist_1 == some r.player)).length +
          ((goalsOf db g.id).filter
            (fun gl => gl.assist_2 == some r.player)).length ∧
      r.points = r.goals + r.assists := by
  have hmem := statOf_of_mem _ r (StatsUnique_recompute db g hu) hr
  rw [hg] at hmem
  obtain ⟨h1, h2, h3, _, _⟩ := recompute_row_fields db g r.player r hmem
  refine ⟨h1, ?_, h3⟩
  rw [h2, assistCount_eq_filter, assistCount_eq_filter]

theorem recompute_game_counts_correct_witness :
    (⟨101, 1, 3, 1, 2, 0, 0, 0⟩ : PlayerStats).goals =
        ((goalsOf exDB 1).filter (fun gl => gl.scorer == 101)).length ∧
      (⟨101, 1, 3, 1, 2, 0, 0, 0⟩ : PlayerStats).assists =
        ((goalsOf exDB 1).filter
            (fun gl => gl.assist_1 == some 101)).length +
          ((goalsOf exDB 1).filter
            (fun gl => gl.assist_2 == some 101)).length ∧
      (⟨101, 1, 3, 1, 2, 0, 0, 0⟩ : PlayerStats).points =
        (⟨101, 1, 3, 1, 2, 0, 0, 0⟩ : PlayerStats).goals +
          (⟨101, 1, 3, 1, 2, 0, 0, 0⟩ : PlayerStats).assists :=
  recompute_game_counts_correct exDB exGame ⟨101, 1, 3, 1, 2, 0, 0, 0⟩
    (by unfold StatsUnique; decide) (by decide) rfl

/-- **C4.** `recompute_game` is idempotent: a second run on the unchanged
event tables leaves the stats row of every (player, game-`g`) key exactly as
the first run left it. -/
theorem recompute_game_idempotent (db : DB) (g : Game) (pid : Nat) :
    statOf (recompute_game (recompute_game db g) g).stats pid g.id =
      statOf (recompute_game db g).stats pid g.id := by
  have h1 := statOf_recompute db g pid
  have h2 := statOf_recompute (recompute_game db g) g pid
  have hupds : updsFor (recompute_game db g) g pid = updsFor db g pid := rfl
  rw [h2, hupds, h1]
  exact applyAll_reset_idem pid g.id (updsFor db g pid)
    (fun u hu => updList_ok db g u (List.mem_of_mem_filter hu))
    (statOf db.stats pid g.id)

/-- **C5.** `recompute_game`'s only database side effect is on the
`PlayerStats` rows of the given game: every other table and every stats row
of another game is unchanged. -/
theorem recompute_game_frame (db : DB) (g : Game) :
    (recompute_game db g).games = db.games ∧
      (recompute_game db g).goals = db.goals ∧
      (recompute_game db g).penalties = db.penalties ∧
      (recompute_game db g).lines = db.lines ∧
      (recompute_game db g).lineAssignments = db.lineAssignments ∧
      (recompute_game db g).players = db.players ∧
      (recompute_game db g).nominations = db.nominations ∧
      (recompute_game db g).stats.filter (fun t => t.game != g.id) =
        db.stats.filter (fun t => t.game != g.id) :=
  ⟨rfl, rfl, rfl, rfl, rfl, rfl, rfl, others_recompute db g⟩

/-- **C10.** `recompute_game` never deletes `PlayerStats` rows: every
(player, game) key present before the run is present after it, and a player
of game `g` with no goal, penalty or goalie-assignment involvement keeps a
row whose counters are all zero. -/
theorem recompute_game_preserves_rows (db : DB) (g : Game) :
    (∀ r ∈ db.stats, ∃ r2 ∈ (recompute_game db g).stats,
        r2.player = r.player ∧ r2.game = r.game) ∧
      (∀ r ∈ db.stats, r.game = g.id →
        (∀ gl ∈ goalsOf db g.id, gl.scorer ≠ r.player ∧
          gl.assist_1 ≠ some r.player ∧ gl.assist_2 ≠ some r.player) →
        (∀ pn ∈ db.penalties, pn.game = g.id →
          pn.penalized_player ≠ r.player) →
        (∀ x ∈ goalieAssignments db g.id, x.1.player ≠ some r.player) →
        ∃ r2 ∈ (recompute_game db g).stats, r2.player = r.player ∧
          r2.game = r.game ∧ r2.goals = 0 ∧ r2.assists = 0 ∧ r2.points = 0 ∧
          r2.penalty_minutes = 0 ∧ r2.goals_against = 0) := by
  constructor
  · intro r hr
    have hkeys : ∃ ext, (recompute_game db g).stats.map
        (fun t => (t.player, t.game)) =
        db.stats.map (fun t => (t.player, t.game)) ++ ext := by
      show ∃ ext, (recomputeStats db g).map _ = _
      rw [recomputeStats_eq]
      obtain ⟨ext, hext⟩ := keys_runUpds_extend g.id (updList db g)
        (resetStats g.id db.stats) (updList_ok db g)
      exact ⟨ext, by rw [hext, keys_resetStats]⟩
    obtain ⟨ext, hext⟩ := hkeys
    have hkey : (r.player, r.game) ∈ (recompute_game db g).stats.map
        (fun t => (t.player, t.game)) := by
      rw [hext]
      exact List.mem_append_left _ (List.mem_map_of_mem _ hr)
    rcases List.mem_map.mp hkey with ⟨r2, hr2, hkeq⟩
    exact ⟨r2, hr2, congrArg Prod.fst hkeq, congrArg Prod.snd hkeq⟩
  · intro r hr hg hgoals hpens hga
    have hkeymem : (r.player, g.id) ∈ db.stats.map
        (fun t => (t.player, t.game)) := by
      rw [← hg]
      exact List.mem_map_of_mem _ hr
    have hsome : statOf db.stats r.player g.id ≠ none := fun hnone =>
      (statOf_eq_none_iff db.stats r.player g.id).mp hnone hkeymem
    rcases hold : statOf db.stats r.player g.id with _ | r'
    · exact absurd hold hsome
    have hafter : ∃ r2, statOf (recompute_game db g).stats r.player g.id =
        some r2 := by
      rw [statOf_recompute, hold]
      cases hus : updsFor db g r.player with
      | nil => exact ⟨resetRow r', rfl⟩
      | cons u us' =>
          exact ⟨statsFold (u :: us') ((some (resetRow r')).getD
            (mkStats r.player g.id)), rfl⟩
    obtain ⟨r2, hr2⟩ := hafter
    obtain ⟨f1, f2, f3, f4, f5⟩ := recompute_row_fields db g r.player r2 hr2
    have hk := statOf_some_key hr2
    refine ⟨r2, statOf_some_mem hr2, hk.1, hk.2.trans hg.symm, ?_, ?_, ?_, ?_, ?_⟩
    · rw [f1]
      exact scorerCount_eq_zero_of db g.id r.player
        (fun gl hgl => (hgoals gl hgl).1)
    · rw [f2, assistCount_eq_zero_of db g.id _ r.player
        (fun gl hgl => (hgoals gl hgl).2.1),
        assistCount_eq_zero_of db g.id _ r.player
        (fun gl hgl => (hgoals gl hgl).2.2)]
    · rw [f3, f1, f2, scorerCount_eq_zero_of db g.id r.player
        (fun gl hgl => (hgoals gl hgl).1),
        assistCount_eq_zero_of db g.id _ r.player
        (fun gl hgl => (hgoals gl hgl).2.1),
        assistCount_eq_zero_of db g.id _ r.player
        (fun gl hgl => (hgoals gl hgl).2.2)]
    · rw [f4]
      exact penMinutes_eq_zero_of db g.id r.player hpens
    · exact f5 (gaPids_not_mem_of db g r.player hga)

theorem recompute_game_preserves_rows_witness :
    (∃ r2 ∈ (recompute_game c2zdb c2game).stats,
        r2.player = (⟨100, 1, 5, 1, 1, 4, 3, 2⟩ : PlayerStats).player ∧
        r2.game = (⟨100, 1, 5, 1, 1, 4, 3, 2⟩ : PlayerStats).game) ∧
      (∃ r2 ∈ (recompute_game c2zdb c2game).stats,
        r2.player = (⟨100, 1, 5, 1, 1, 4, 3, 2⟩ : PlayerStats).player ∧
        r2.game = (⟨100, 1, 5, 1, 1, 4, 3, 2⟩ : PlayerStats).game ∧
        r2.goals = 0 ∧ r2.assists = 0 ∧ r2.points = 0 ∧
        r2.penalty_minutes = 0 ∧ r2.goals_against = 0) := by
  have h := recompute_game_preserves_rows c2zdb c2game
  exact ⟨h.1 ⟨100, 1, 5, 1, 1, 4, 3, 2⟩ (by decide),
    h.2 ⟨100, 1, 5, 1, 1, 4, 3, 2⟩ (by decide) rfl (by decide) (by decide)
      (by decide)⟩

theorem gaUpdList_eq_nil_of (db : DB) (g : Game)
    (hgk : ∀ x ∈ goalieAssignments db g.id, ∀ pid, x.1.player = some pid →
      ∀ p, findPlayer db pid = some p → p.position ≠ "goalie") :
    gaUpdList db g = [] := by
  unfold gaUpdList
  rw [List.filterMap_eq_nil_iff]
  intro x hx
  unfold gaUpdOf
  cases hp : x.1.player with
  | none => simp only [hp]
  | some pid =>
      simp only [hp]
      cases hq : findPlayer db pid with
      | none => simp only [hq]
      | some p =>
          simp only [hq]
          rw [if_neg (hgk x hx pid hp p hq)]

/-- **C2 counterexample.** A game with no `Goal` rows and no `Penalty` rows,
a stored score of 2:0 and a goalie on the away line-0 slot G: after
`recompute_game`, the goalie's stats row of that game carries
`goals_against = 2`, not `0`. -/
theorem recompute_game_reset_counterexample :
    c2db.goals = [] ∧ c2db.penalties = [] ∧
      ∃ r ∈ (recompute_game c2db c2game).stats, r.game = c2game.id ∧
        r.goals_against ≠ 0 := by
  refine ⟨rfl, rfl, ⟨100, 1, 0, 0, 0, 0, 0, 2⟩, by decide, rfl, by decide⟩

/-- **C2 (amended).** For every game with no `Goal` and no `Penalty` rows
attached whose line-0 slot-G assignments have no goalie occupant, after
`recompute_game` runs every existing `PlayerStats` row of that game has
goals, assists, penalty_minutes and goals_against all zero.  (The amendment
excludes goalie occupants of line 0 slot G, whose `goals_against` is instead
rewritten from the stored score, as the counterexample shows.) -/
theorem recompute_game_reset_amended (db : DB) (g : Game) (r : PlayerStats)
    (hu : StatsUnique db.stats)
    (hng : ∀ gl ∈ db.goals, gl.game ≠ g.id)
    (hnp : ∀ pn ∈ db.penalties, pn.game ≠ g.id)
    (hgk : ∀ x ∈ goalieAssignments db g.id, ∀ pid, x.1.player = some pid →
      ∀ p, findPlayer db pid = some p → p.position ≠ "goalie")
    (hr : r ∈ (recompute_game db g).stats) (hg : r.game = g.id) :
    r.goals = 0 ∧ r.assists = 0 ∧ r.penalty_minutes = 0 ∧
      r.goals_against = 0 := by
  have hmem := statOf_of_mem _ r (StatsUnique_recompute db g hu) hr
  rw [hg] at hmem
  obtain ⟨f1, f2, _, f4, f5⟩ := recompute_row_fields db g r.player r hmem
  have hnil : goalsOf db g.id = [] :=
    List.filter_eq_nil_iff.mpr
      (fun gl hgl hb => hng gl hgl (by simpa using hb))
  refine ⟨?_, ?_, ?_, ?_⟩
  · rw [f1]
    exact scorerCount_eq_zero_of db g.id r.player
      (fun gl hgl => by rw [hnil] at hgl; cases hgl)
  · rw [f2, assistCount_eq_zero_of db g.id _ r.player
      (fun gl hgl => by rw [hnil] at hgl; cases hgl),
      assistCount_eq_zero_of db g.id _ r.player
      (fun gl hgl => by rw [hnil] at hgl; cases hgl)]
  · rw [f4]
    exact penMinutes_eq_zero_of db g.id r.player
      (fun pn hpn hpg => absurd hpg (hnp pn hpn))
  · apply f5
    have hnilga : gaPids db g = [] := by
      unfold gaPids
      rw [gaUpdList_eq_nil_of db g hgk]
      rfl
    rw [hnilga]
    exact List.not_mem_nil _

theorem recompute_game_reset_amended_witness :
    (⟨100, 1, 0, 0, 0, 4, 0, 0⟩ : PlayerStats).goals = 0 ∧
      (⟨100, 1, 0, 0, 0, 4, 0, 0⟩ : PlayerStats).assists = 0 ∧
      (⟨100, 1, 0, 0, 0, 4, 0, 0⟩ : PlayerStats).penalty_minutes = 0 ∧
      (⟨100, 1, 0, 0, 0, 4, 0, 0⟩ : PlayerStats).goals_against = 0 :=
  recompute_game_reset_amended c2zdb c2game ⟨100, 1, 0, 0, 0, 4, 0, 0⟩
    (by unfold StatsUnique; decide) (by decide) (by decide) (by decide)
    (by decide) rfl

theorem concededFor_eq (g : Game) (ln : Line) :
    concededFor g ln =
      if ln.team = g.home_team then g.score_away else g.score_home := by
  unfold concededFor
  by_cases h : ln.team = g.home_team
  · rw [if_pos (by simp [h] : (ln.team == g.home_team) = true), if_pos h]
  · rw [if_neg (by simp [h] : ¬ (ln.team == g.home_team) = true), if_neg h]

/-- **C3.** After `recompute_game(g)`, a goalie assigned to line 0 slot G of
game `g` has `goals_against` equal to the opposing team's stored score
(`score_away` when the goalie's line belongs to the home team, `score_home`
otherwise), and the row of any player the goals-against pass does not touch
(absent or non-goalie occupants included) keeps `goals_against = 0`. -/
theorem recompute_game_goalie_ga (db : DB) (g : Game) (la : LineAssignment)
    (ln : Line) (pid : Nat) (p : Player) (r2 : PlayerStats)
    (hu : StatsUnique db.stats) (hnd : (gaPids db g).Nodup)
    (hla : la ∈ db.lineAssignments) (hln : findLine db la.line = some ln)
    (hgm : ln.game = g.id) (h0 : ln.line_number = 0)
    (hslot : la.slot = LineSlot.G) (hpl : la.player = some pid)
    (hfp : findPlayer db pid = some p) (hpos : p.position = "goalie")
    (hr2 : r2 ∈ (recompute_game db g).stats) (hr2g : r2.game = g.id) :
    (∃ r, statOf (recompute_game db g).stats pid g.id = some r ∧
        r.goals_against =
          (if ln.team = g.home_team then g.score_away else g.score_home)) ∧
      (r2.player ∉ gaPids db g → r2.goals_against = 0) := by
  constructor
  · have hx : (la, ln) ∈ goalieAssignments db g.id := by
      unfold goalieAssignments
      apply List.mem_filterMap.mpr
      refine ⟨la, hla, ?_⟩
      simp only [hln]
      rw [if_pos (by simp [hgm, h0, hslot])]
    have hupd : gaUpdOf db g (la, ln) =
        some (pid, fun s => { s with goals_against := concededFor g ln }) := by
      unfold gaUpdOf
      simp only [hpl, hfp]
      rw [if_pos hpos]
    have humem : ((pid, fun s => { s with goals_against := concededFor g ln }) :
        StatsUpd) ∈ gaUpdList db g :=
      List.mem_filterMap.mpr ⟨(la, ln), hx, hupd⟩
    have hgaFor : (gaUpdList db g).filter (fun u => u.1 == pid) =
        [(pid, fun s => { s with goals_against := concededFor g ln })] :=
      filter_key_of_nodup_map (gaUpdList db g) hnd _ humem
    have hsplit : updsFor db g pid =
        (eventUpdList db g).filter (fun u => u.1 == pid) ++
          [(pid, fun s => { s with goals_against := concededFor g ln })] := by
      unfold updsFor
      rw [updList_split, List.filter_append, hgaFor]
    have hne : updsFor db g pid ≠ [] := by
      rw [hsplit]
      simp
    rw [statOf_recompute db g pid, applyAll_ne_nil _ _ _ _ hne]
    refine ⟨_, rfl, ?_⟩
    rw [hsplit, statsFold_append]
    show concededFor g ln = _
    exact concededFor_eq g ln
  · intro hnot
    have hmem := statOf_of_mem _ r2 (StatsUnique_recompute db g hu) hr2
    rw [hr2g] at hmem
    obtain ⟨_, _, _, _, f5⟩ := recompute_row_fields db g r2.player r2 hmem
    exact f5 hnot

theorem recompute_game_goalie_ga_witness :
    (∃ r, statOf (recompute_game exDB exGame).stats 200 exGame.id = some r ∧
        r.goals_against =
          (if (⟨5, 1, 20, 0⟩ : Line).team = exGame.home_team then
            exGame.score_away else exGame.score_home)) ∧
      ((⟨101, 1, 3, 1, 2, 0, 0, 0⟩ : PlayerStats).goals_against = 0) := by
  have h := recompute_game_goalie_ga exDB exGame ⟨7, 5, some 200, LineSlot.G⟩
    ⟨5, 1, 20, 0⟩ 200 ⟨200, some 20, "goalie"⟩ ⟨101, 1, 3, 1, 2, 0, 0, 0⟩
    (by unfold StatsUnique; decide) (by decide) (by decide) rfl rfl rfl rfl
    rfl (by decide) rfl (by decide) rfl
  exact ⟨h.1, h.2 (by decide)⟩

/-! ### `LineAssignment.clean` -/

theorem laClean_ok_iff (db : DB) (la : LineAssignment) :
    laClean db la = .ok () ↔
      laTeamError db la = none ∧ laGoalieLineError db la = none ∧
        laExistsElsewhere db la = false := by
  unfold laClean
  cases hT : laTeamError db la with
  | some e => simp
  | none =>
      cases hG : laGoalieLineError db la with
      | some e => simp
      | none =>
          cases hE : laExistsElsewhere db la <;> simp

theorem laClean_error_of_goalie (db : DB) (la : LineAssignment) (e : String)
    (hG : laGoalieLineError db la = some e) :
    ∃ e2, laClean db la = .error e2 := by
  unfold laClean
  cases hT : laTeamError db la with
  | some e1 => exact ⟨e1, rfl⟩
  | none =>
      rw [hG]
      exact ⟨e, rfl⟩

/-- **C6.** `LineAssignment` validation accepts an assignment to a line with
`line_number` 0 only when the slot is G and, when a player is set, only when
that player's position is `"goalie"`; any other slot on line 0 or a
non-goalie occupant of slot G fails validation. -/
theorem lineassignment_goalie_line_validation (db : DB) (la : LineAssignment)
    (ln : Line) (hln : findLine db la.line = some ln)
    (h0 : ln.line_number = 0) :
    (laClean db la = .ok () →
      la.slot = LineSlot.G ∧
      (∀ pid p, la.player = some pid → findPlayer db pid = some p →
        p.position = "goalie")) ∧
      (la.slot ≠ LineSlot.G → ∃ e, laClean db la = .error e) ∧
      (∀ pid p, la.player = some pid → findPlayer db pid = some p →
        p.position ≠ "goalie" → ∃ e, laClean db la = .error e) := by
  refine ⟨?_, ?_, ?_⟩
  · intro hok
    obtain ⟨_, hG, _⟩ := (laClean_ok_iff db la).mp hok
    unfold laGoalieLineError at hG
    simp only [hln] at hG
    rw [if_pos h0] at hG
    by_cases hs : la.slot = LineSlot.G
    · refine ⟨hs, ?_⟩
      intro pid p hpid hp
      rw [if_neg (fun h => h hs)] at hG
      simp only [hpid, hp] at hG
      by_cases hpos : p.position = "goalie"
      · exact hpos
      · rw [if_pos (fun h => hpos h)] at hG
        cases hG
    · rw [if_pos hs] at hG
      cases hG
  · intro hs
    have hG : laGoalieLineError db la =
        some "V brankářské lajně (0) je povolen pouze post Brankář." := by
      unfold laGoalieLineError
      simp only [hln]
      rw [if_pos h0, if_pos hs]
    exact laClean_error_of_goalie db la _ hG
  · intro pid p hpid hp hpos
    by_cases hs : la.slot = LineSlot.G
    · have hG : laGoalieLineError db la =
          some "Do brankářské lajny lze přiřadit jen hráče s pozicí Brankář." := by
        unfold laGoalieLineError
        simp only [hln]
        rw [if_pos h0, if_neg (fun h => h hs)]
        simp only [hpid, hp]
        rw [if_pos hpos]
      exact laClean_error_of_goalie db la _ hG
    · have hG : laGoalieLineError db la =
          some "V brankářské lajně (0) je povolen pouze post Brankář." := by
        unfold laGoalieLineError
        simp only [hln]
        rw [if_pos h0, if_pos hs]
      exact laClean_error_of_goalie db la _ hG

theorem lineassignment_goalie_line_validation_witness :
    ∃ e, laClean c6db c6la = .error e :=
  (lineassignment_goalie_line_validation c6db c6la ⟨5, 1, 20, 0⟩ rfl rfl).2.1
    (by decide)

theorem laExistsElsewhere_iff (db : DB) (la : LineAssignment) (pid : Nat)
    (ln : Line) (hp : la.player = some pid)
    (hln : findLine db la.line = some ln) :
    laExistsElsewhere db la = true ↔
      ∃ o ∈ db.lineAssignments, o.player = some pid ∧
        lineGameOf db o.line = some ln.game ∧ o.id ≠ la.id := by
  unfold laExistsElsewhere
  simp only [hp, hln]
  rw [List.any_eq_true]
  constructor
  · rintro ⟨o, ho, hb⟩
    simp only [Bool.and_eq_true, beq_iff_eq, bne_iff_ne] at hb
    exact ⟨o, ho, hb.1.1, hb.1.2, hb.2⟩
  · rintro ⟨o, ho, h1, h2, h3⟩
    exact ⟨o, ho, by simp [h1, h2, h3]⟩

/-- **C7.** Validating a `LineAssignment` with a player set fails whenever
another `LineAssignment` row (a different primary key) already assigns the
same player to any line of the same game, and the exclusivity rule passes
when no such row exists: if the other two rules also pass, `clean` succeeds.
`clean` itself performs no database write; it only raises. -/
theorem lineassignment_cross_line_exclusivity (db : DB) (la : LineAssignment)
    (pid : Nat) (ln : Line) (hp : la.player = some pid)
    (hln : findLine db la.line = some ln) :
    ((∃ o ∈ db.lineAssignments, o.player = some pid ∧
        lineGameOf db o.line = some ln.game ∧ o.id ≠ la.id) →
      ∃ e, laClean db la = .error e) ∧
      ((∀ o ∈ db.lineAssignments, ¬(o.player = some pid ∧
          lineGameOf db o.line = some ln.game ∧ o.id ≠ la.id)) →
        laTeamError db la = none → laGoalieLineError db la = none →
        laClean db la = .ok ()) := by
  constructor
  · intro hex
    have hE : laExistsElsewhere db la = true :=
      (laExistsElsewhere_iff db la pid ln hp hln).mpr hex
    unfold laClean
    cases hT : laTeamError db la with
    | some e => exact ⟨e, rfl⟩
    | none =>
        cases hG : laGoalieLineError db la with
        | some e => exact ⟨e, rfl⟩
        | none =>
            rw [if_pos hE]
            exact ⟨_, rfl⟩
  · intro hno hT hG
    cases hE : laExistsElsewhere db la with
    | true =>
        rcases (laExistsElsewhere_iff db la pid ln hp hln).mp hE
          with ⟨o, ho, h1, h2, h3⟩
        exact absurd ⟨h1, h2, h3⟩ (hno o ho)
    | false =>
        unfold laClean
        rw [hT, hG, if_neg (by rw [hE]; exact fun h => Bool.false_ne_true h)]

theorem lineassignment_cross_line_exclusivity_witness :
    ∃ e, laClean c7db c7la = .error e :=
  (lineassignment_cross_line_exclusivity c7db c7la 100 ⟨6, 1, 20, 2⟩ rfl
    rfl).1 ⟨⟨8, 5, some 100, LineSlot.LW⟩, by decide, rfl, rfl, by decide⟩

/-! ### `Goal.clean` and `Penalty.clean` -/

theorem firstErr_eq_none_iff (f : Nat → Option String) (l : List Nat) :
    firstErr f l = none ↔ ∀ pid ∈ l, f pid = none := by
  induction l with
  | nil => simp [firstErr]
  | cons x xs ih =>
      unfold firstErr
      cases hf : f x with
      | some e => simp [hf]
      | none => simp [hf, ih]

theorem firstErr_mem_some (f : Nat → Option String) (l : List Nat) (pid : Nat)
    (hmem : pid ∈ l) (hf : f pid ≠ none) :
    ∃ e, firstErr f l = some e := by
  induction l with
  | nil => cases hmem
  | cons x xs ih =>
      unfold firstErr
      cases hfx : f x with
      | some e => exact ⟨e, rfl⟩
      | none =>
          rcases List.mem_cons.mp hmem with rfl | hm
          · exact absurd hfx hf
          · exact ih hm

theorem goalClean_ok_iff (db : DB) (gl : Goal) :
    goalClean db gl = .ok () ↔
      eventTeamError db gl.game gl.team = none ∧
        firstErr (playerEventError db gl.team gl.game)
          (involvedPlayers gl) = none ∧
        goalDupError gl = none := by
  unfold goalClean
  cases hB : eventTeamError db gl.game gl.team with
  | some e => simp
  | none =>
      cases hF : firstErr (playerEventError db gl.team gl.game)
          (involvedPlayers gl) with
      | some e => simp
      | none =>
          cases hD : goalDupError gl with
          | some e => simp
          | none => simp

theorem penaltyClean_ok_iff (db : DB) (pn : Penalty) :
    penaltyClean db pn = .ok () ↔
      eventTeamError db pn.game pn.team = none ∧
        penaltyTeamError db pn = none ∧
        nominated db pn.game pn.penalized_player = true := by
  unfold penaltyClean
  cases hB : eventTeamError db pn.game pn.team with
  | some e => simp
  | none =>
      cases hT : penaltyTeamError db pn with
      | some e => simp
      | none =>
          cases hN : nominated db pn.game pn.penalized_player <;> simp [hN]

theorem playerEventError_none (db : DB) (tid gid pid : Nat) (p : Player)
    (h : playerEventError db tid gid pid = none)
    (hp : findPlayer db pid = some p) :
    p.team = some tid ∧ nominated db gid pid = true := by
  unfold playerEventError at h
  simp only [hp] at h
  by_cases ht : p.team ≠ some tid
  · rw [if_pos ht] at h
    cases h
  · rw [if_neg ht] at h
    refine ⟨Decidable.not_not.mp ht, ?_⟩
    by_cases hn : nominated db gid pid
    · exact hn
    · rw [if_pos hn] at h
      cases h

theorem penaltyTeamError_none (db : DB) (pn : Penalty) (p : Player)
    (h : penaltyTeamError db pn = none)
    (hp : findPlayer db pn.penalized_player = some p) :
    p.team = some pn.team := by
  unfold penaltyTeamError at h
  simp only [hp] at h
  by_cases ht : p.team ≠ some pn.team
  · rw [if_pos ht] at h
    cases h
  · exact Decidable.not_not.mp ht

theorem nominated_removeNomination_self (db : DB) (gid pid : Nat) :
    nominated (removeNomination db gid pid) gid pid = false := by
  unfold nominated removeNomination
  rw [List.any_eq_false]
  intro n hn
  have hf := (List.mem_filter.mp hn).2
  rw [Bool.not_eq_true'] at hf
  intro hp
  rw [hf] at hp
  exact Bool.false_ne_true hp

/-- **C8.** `Goal`/`Penalty` validation passes only if every involved player
belongs to the event's team and is nominated for the event's game, and
deleting a player's nomination makes a previously valid `Goal` referencing
that player fail re-validation. -/
theorem event_nomination_validation (db : DB) (gl : Goal) (pn : Penalty) :
    (goalClean db gl = .ok () →
      ∀ pid ∈ involvedPlayers gl, ∀ p, findPlayer db pid = some p →
        p.team = some gl.team ∧ nominated db gl.game pid = true) ∧
      (penaltyClean db pn = .ok () →
        ∀ p, findPlayer db pn.penalized_player = some p →
          p.team = some pn.team ∧
            nominated db pn.game pn.penalized_player = true) ∧
      (goalClean db gl = .ok () →
        ∀ pid ∈ involvedPlayers gl, ∀ p, findPlayer db pid = some p →
          ∃ e, goalClean (removeNomination db gl.game pid) gl = .error e) := by
  refine ⟨?_, ?_, ?_⟩
  · intro hok pid hmem p hp
    obtain ⟨_, hFE, _⟩ := (goalClean_ok_iff db gl).mp hok
    exact playerEventError_none db gl.team gl.game pid p
      ((firstErr_eq_none_iff _ _).mp hFE pid hmem) hp
  · intro hok p hp
    obtain ⟨_, hT, hN⟩ := (penaltyClean_ok_iff db pn).mp hok
    exact ⟨penaltyTeamError_none db pn p hT hp, hN⟩
  · intro hok pid hmem p hp
    obtain ⟨hBase, hFE, _⟩ := (goalClean_ok_iff db gl).mp hok
    have hteam : p.team = some gl.team :=
      (playerEventError_none db gl.team gl.game pid p
        ((firstErr_eq_none_iff _ _).mp hFE pid hmem) hp).1
    have hnew : playerEventError (removeNomination db gl.game pid) gl.team
        gl.game pid =
        some "Střelec/asistenti musí být nominováni do tohoto zápasu." := by
      unfold playerEventError
      have hp' : findPlayer (removeNomination db gl.game pid) pid = some p := hp
      simp only [hp']
      rw [if_neg (fun h => h hteam)]
      rw [if_pos (fun h => Bool.false_ne_true
        ((nominated_removeNomination_self db gl.game pid) ▸ h))]
    obtain ⟨e, he⟩ := firstErr_mem_some
      (playerEventError (removeNomination db gl.game pid) gl.team gl.game)
      (involvedPlayers gl) pid hmem
      (by rw [hnew]; exact fun h => Option.noConfusion h)
    have hBase' : eventTeamError (removeNomination db gl.game pid) gl.game
        gl.team = none := hBase
    refine ⟨e, ?_⟩
    unfold goalClean
    simp only [hBase', he]

theorem event_nomination_validation_witness :
    ((⟨100, some 10, "forward"⟩ : Player).team = some 10 ∧
        nominated exDB 1 100 = true) ∧
      ((⟨102, some 10, "forward"⟩ : Player).team = some 10 ∧
        nominated exDB 1 102 = true) ∧
      ∃ e, goalClean (removeNomination exDB 1 100) c8goal = .error e := by
  have h := event_nomination_validation exDB c8goal c8pen
  exact ⟨h.1 rfl 100 (by decide) _ rfl, h.2.1 rfl _ rfl,
    h.2.2 rfl 100 (by decide) _ rfl⟩

/-! ### `prune_goals_to_score` -/

theorem filter_of_subpred {α : Type} (l : List α) (keep q : α → Bool)
    (h : ∀ x ∈ l, q x = true → keep x = true) :
    (l.filter keep).filter q = l.filter q := by
  induction l with
  | nil => rfl
  | cons x xs ih =>
      have ih' := ih (fun y hy => h y (List.mem_cons_of_mem x hy))
      rw [List.filter_cons]
      by_cases hk : keep x
      · rw [if_pos hk, List.filter_cons, List.filter_cons]
        by_cases hq : q x
        · rw [if_pos hq, if_pos hq, ih']
        · rw [if_neg hq, if_neg hq, ih']
      · rw [if_neg hk, List.filter_cons]
        have hq : q x = false := by
          cases hqx : q x with
          | false => rfl
          | true => exact absurd (h x (List.mem_cons_self x xs) hqx) hk
        rw [hq]
        simp only [Bool.false_eq_true, if_false, ih']

/-- The goal table produced by one `_delete_excess` pass. -/
theorem deleteExcessGoals_goals (db : DB) (gid tid target : Nat) :
    (deleteExcessGoals db gid tid target).goals =
      db.goals.filter (fun gl =>
        !((((teamGameGoals db gid tid).mergeSort goalDescLE).take
            (((teamGameGoals db gid tid).mergeSort goalDescLE).length -
              target)).map (fun gl => gl.id)).contains gl.id) := rfl

theorem teamGameGoals_filter_comm (db : DB) (gid tid : Nat) (ids : List Nat) :
    (db.goals.filter (fun gl => !(ids.contains gl.id))).filter
        (fun gl => gl.game == gid && gl.team == tid) =
      (teamGameGoals db gid tid).filter (fun gl => !(ids.contains gl.id)) := by
  unfold teamGameGoals
  rw [List.filter_filter, List.filter_filter]
  exact List.filter_congr (fun x _ => Bool.and_comm _ _)

theorem length_filter_not_contains_append (T D : List Goal)
    (hnd : ((T ++ D).map (fun gl => gl.id)).Nodup) :
    ((T ++ D).filter (fun gl =>
      !(T.map (fun gl => gl.id)).contains gl.id)).length = D.length := by
  rw [List.map_append, List.nodup_append] at hnd
  rw [List.filter_append]
  have htake : T.filter (fun gl =>
      !(T.map (fun gl => gl.id)).contains gl.id) = [] := by
    rw [List.filter_eq_nil_iff]
    intro gl hgl hb
    rw [Bool.not_eq_true'] at hb
    have hmm : gl.id ∈ T.map (fun gl => gl.id) :=
      List.mem_map_of_mem _ hgl
    have hc : List.elem gl.id (T.map (fun gl => gl.id)) = true :=
      List.elem_iff.mpr hmm
    have hb' : List.elem gl.id (T.map (fun gl => gl.id)) = false := hb
    rw [hb'] at hc
    exact Bool.false_ne_true hc
  have hdrop : D.filter (fun gl =>
      !(T.map (fun gl => gl.id)).contains gl.id) = D := by
    rw [List.filter_eq_self]
    intro gl hgl
    rw [Bool.not_eq_true']
    cases hc : (T.map (fun gl => gl.id)).contains gl.id with
    | false => rfl
    | true =>
        have hmemT : gl.id ∈ T.map (fun gl => gl.id) := List.elem_iff.mp hc
        have hmemD : gl.id ∈ D.map (fun gl => gl.id) :=
          List.mem_map_of_mem _ hgl
        exact absurd hmemD (hnd.2.2 hmemT)
  rw [htake, hdrop, List.nil_append]

theorem length_filter_not_contains_take (S : List Goal) (extra : Nat)
    (hnd : (S.map (fun gl => gl.id)).Nodup) :
    (S.filter (fun gl =>
      !((S.take extra).map (fun gl => gl.id)).contains gl.id)).length =
      S.length - extra := by
  have h := length_filter_not_contains_append (S.take extra) (S.drop extra)
    (by rw [List.take_append_drop]; exact hnd)
  rw [List.take_append_drop] at h
  rw [h, List.length_drop]

theorem teamGameGoals_ids_nodup (db : DB) (gid tid : Nat)
    (hids : (db.goals.map (fun gl => gl.id)).Nodup) :
    ((((teamGameGoals db gid tid).mergeSort goalDescLE)).map
      (fun gl => gl.id)).Nodup := by
  refine ((List.mergeSort_perm (teamGameGoals db gid tid)
    goalDescLE).map (fun gl => gl.id)).nodup_iff.mpr ?_
  exact List.Nodup.sublist
    (List.Sublist.map _ (List.filter_sublist db.goals)) hids

theorem deleteExcessGoals_self_count (db : DB) (gid tid target : Nat)
    (hids : (db.goals.map (fun gl => gl.id)).Nodup) :
    (teamGameGoals (deleteExcessGoals db gid tid target) gid tid).length =
      (teamGameGoals db gid tid).length -
        ((teamGameGoals db gid tid).length - target) := by
  have hperm := List.mergeSort_perm (teamGameGoals db gid tid) goalDescLE
  have h1 : teamGameGoals (deleteExcessGoals db gid tid target) gid tid =
      (teamGameGoals db gid tid).filter (fun gl =>
        !((((teamGameGoals db gid tid).mergeSort goalDescLE).take
            (((teamGameGoals db gid tid).mergeSort goalDescLE).length -
              target)).map (fun gl => gl.id)).contains gl.id) :=
    teamGameGoals_filter_comm db gid tid _
  rw [h1, ← (hperm.filter _).length_eq,
    length_filter_not_contains_take _ _ (teamGameGoals_ids_nodup db gid tid hids),
    hperm.length_eq]

theorem deleteExcessGoals_other (db : DB) (gid tid target : Nat)
    (q : Goal → Bool)
    (hq : ∀ gl ∈ db.goals, q gl = true →
      (gl.game == gid && gl.team == tid) = false)
    (hids : (db.goals.map (fun gl => gl.id)).Nodup) :
    (deleteExcessGoals db gid tid target).goals.filter q =
      db.goals.filter q := by
  rw [deleteExcessGoals_goals]
  apply filter_of_subpred
  intro gl hgl hqgl
  rw [Bool.not_eq_true']
  cases hc : ((((teamGameGoals db gid tid).mergeSort goalDescLE).take
      (((teamGameGoals db gid tid).mergeSort goalDescLE).length -
        target)).map (fun gl => gl.id)).contains gl.id with
  | false => rfl
  | true =>
      rcases List.mem_map.mp (List.elem_iff.mp hc) with ⟨d, hd, hdid⟩
      have hdL : d ∈ teamGameGoals db gid tid :=
        (List.mergeSort_perm _ _).subset ((List.take_sublist _ _).subset hd)
      have hdgoals : d ∈ db.goals := (List.mem_filter.mp hdL).1
      have hdpred := (List.mem_filter.mp hdL).2
      have hdgl : d = gl := List.inj_on_of_nodup_map hids hdgoals hgl hdid
      rw [hdgl] at hdpred
      rw [hq gl hgl hqgl] at hdpred
      exact absurd hdpred Bool.false_ne_true

theorem deleteExcessGoals_other_team (db : DB) (gid tid target tid' : Nat)
    (hids : (db.goals.map (fun gl => gl.id)).Nodup) (hne : tid' ≠ tid) :
    teamGameGoals (deleteExcessGoals db gid tid target) gid tid' =
      teamGameGoals db gid tid' := by
  show (deleteExcessGoals db gid tid target).goals.filter _ =
    db.goals.filter _
  apply deleteExcessGoals_other db gid tid target _ _ hids
  intro gl _ hq
  simp only [Bool.and_eq_true, beq_iff_eq] at hq
  have : (gl.team == tid) = false := by
    simp only [beq_eq_false_iff_ne, ne_eq, hq.2]
    exact hne
  rw [this, Bool.and_false]

theorem deleteExcessGoals_no_excess (db : DB) (gid tid target : Nat)
    (h : (teamGameGoals db gid tid).length ≤ target) :
    deleteExcessGoals db gid tid target = db := by
  have hlen : ((teamGameGoals db gid tid).mergeSort goalDescLE).length -
      target = 0 := by
    rw [(List.mergeSort_perm _ _).length_eq]
    omega
  have hg : (deleteExcessGoals db gid tid target).goals = db.goals := by
    rw [deleteExcessGoals_goals, hlen]
    exact List.filter_eq_self.mpr (fun a _ => rfl)
  have hrec : deleteExcessGoals db gid tid target =
      { db with goals := (deleteExcessGoals db gid tid target).goals } := rfl
  rw [hrec, hg]

/-- **C9.** After `prune_goals_to_score(game)`, each team's `Goal` rows of
the game number at most that team's stored score, and a team whose goal
count already does not exceed its score loses none of its goals. -/
theorem prune_goals_bounded_by_score (db : DB) (g : Game)
    (hids : (db.goals.map (fun gl => gl.id)).Nodup)
    (hh : g.home_team ≠ 0) (ha : g.away_team ≠ 0)
    (hne : g.home_team ≠ g.away_team) :
    (teamGameGoals (prune_goals_to_score db g) g.id g.home_team).length ≤
        g.score_home ∧
      (teamGameGoals (prune_goals_to_score db g) g.id g.away_team).length ≤
        g.score_away ∧
      ((teamGameGoals db g.id g.home_team).length ≤ g.score_home →
        teamGameGoals (prune_goals_to_score db g) g.id g.home_team =
          teamGameGoals db g.id g.home_team) ∧
      ((teamGameGoals db g.id g.away_team).length ≤ g.score_away →
        teamGameGoals (prune_goals_to_score db g) g.id g.away_team =
          teamGameGoals db g.id g.away_team) := by
  have hguard : prune_goals_to_score db g =
      deleteExcessGoals (deleteExcessGoals db g.id g.home_team g.score_home)
        g.id g.away_team g.score_away := by
    unfold prune_goals_to_score
    rw [if_neg (fun hc => hc.elim hh ha)]
  have hids1 : ((deleteExcessGoals db g.id g.home_team g.score_home).goals.map
      (fun gl => gl.id)).Nodup := by
    rw [deleteExcessGoals_goals]
    exact List.Nodup.sublist
      (List.Sublist.map _ (List.filter_sublist db.goals)) hids
  have hhome1 : (teamGameGoals (deleteExcessGoals db g.id g.home_team
      g.score_home) g.id g.home_team).length =
      (teamGameGoals db g.id g.home_team).length -
        ((teamGameGoals db g.id g.home_team).length - g.score_home) :=
    deleteExcessGoals_self_count db g.id g.home_team g.score_home hids
  have hhome2 : teamGameGoals (prune_goals_to_score db g) g.id g.home_team =
      teamGameGoals (deleteExcessGoals db g.id g.home_team g.score_home)
        g.id g.home_team := by
    rw [hguard]
    exact deleteExcessGoals_other_team _ g.id g.away_team g.score_away
      g.home_team hids1 hne
  have haway1 : teamGameGoals (deleteExcessGoals db g.id g.home_team
      g.score_home) g.id g.away_team = teamGameGoals db g.id g.away_team :=
    deleteExcessGoals_other_team db g.id g.home_team g.score_home
      g.away_team hids (fun hc => hne hc.symm)
  have haway2 : (teamGameGoals (prune_goals_to_score db g) g.id
      g.away_team).length =
      (teamGameGoals db g.id g.away_team).length -
        ((teamGameGoals db g.id g.away_team).length - g.score_away) := by
    rw [hguard, deleteExcessGoals_self_count _ g.id g.away_team g.score_away
      hids1, haway1]
  refine ⟨?_, ?_, ?_, ?_⟩
  · rw [hhome2, hhome1]
    omega
  · rw [haway2]
    omega
  · intro hle
    rw [hhome2, deleteExcessGoals_no_excess db g.id g.home_team g.score_home
      hle]
  · intro hle
    rw [hguard, deleteExcessGoals_no_excess _ g.id g.away_team g.score_away
      (by rw [haway1]; exact hle), haway1]

theorem prune_goals_bounded_by_score_witness :
    (teamGameGoals (prune_goals_to_score c9db c9game) c9game.id
        c9game.home_team).length ≤ c9game.score_home ∧
      (teamGameGoals (prune_goals_to_score c9db c9game) c9game.id
        c9game.away_team).length ≤ c9game.score_away ∧
      ((teamGameGoals c9db c9game.id c9game.home_team).length ≤
          c9game.score_home →
        teamGameGoals (prune_goals_to_score c9db c9game) c9game.id
            c9game.home_team =
          teamGameGoals c9db c9game.id c9game.home_team) ∧
      ((teamGameGoals c9db c9game.id c9game.away_team).length ≤
          c9game.score_away →
        teamGameGoals (prune_goals_to_score c9db c9game) c9game.id
            c9game.away_team =
          teamGameGoals c9db c9game.id c9game.away_team) :=
  prune_goals_bounded_by_score c9db c9game (by decide) (by decide) (by decide)
    (by decide)

end Powerplay
